import Mathlib

/-!
Verification of `scripts/convert_systems_to_services/convert_systems_to_services.py`.

The script is a small command-line utility against a GraphQL catalog API:
it paginates through `systems` / `domains` connections, saves the records to
dated JSON snapshot files, converts domains to systems and systems to services
via creation mutations, and offers a (partially unimplemented) relationship
reconciliation flow.

Shallow embedding conventions:
  * Python JSON-like objects (parsed responses, records, mutation vars)
    are values of the inductive type `Json`; Python `dict`s become association
    lists in field order, Python `None` becomes `Json.null`, Python `int`s
    become `Int`.
  * Fallible Python operations (`d[k]`, `d.get`, iteration, the HTTP call)
    return `Except PyError _`; an uncaught Python exception is an `.error`.
  * The network is modelled by a finite stub: the list of HTTP responses the
    endpoint returns to successive `requests.post` calls, in call order.
  * Observable side effects (network calls with their vars, file writes,
    console output and input prompts) are collected in an `Event` trace.
  * `json.dump(data, f, indent=4)` / `json.loads` are modelled by the
    executable codec `json_dumps` / `json_loads` below (strings over Unicode
    scalar values, integer numbers; floats are outside the model).
-/

namespace ConvertScript

/-- Models the JSON-like Python values the script passes around: parsed GraphQL
responses, catalog records, and mutation vars. Python dicts are embedded
as association lists in insertion order; numbers are integers. -/
inductive Json where
  | null
  | bool (b : Bool)
  | num (n : Int)
  | str (s : String)
  | arr (elements : List Json)
  | obj (fields : List (String × Json))
deriving Repr

/-- Models the Python exceptions the script can raise (uncaught exceptions
propagate out of the embedded functions as `.error`).  `stubExhausted` is a
modelling artifact: the finite stub transport ran out of responses while the
script wanted to issue another request. -/
inductive PyError where
  | keyError (key : String)
  | typeError
  | attributeError (name : String)
  | transportError (message : String)
  | fileNotFoundError (path : String)
  | nameError (name : String)
  | eofError
  | stubExhausted
deriving Repr, DecidableEq

/-- Models Python subscripting `d[key]` on a JSON value: a `KeyError` when the
key is missing from a dict, a `TypeError` when the value is not a dict. -/
def Json.item (j : Json) (key : String) : Except PyError Json :=
  match j with
  | .obj fields =>
    match fields.lookup key with
    | some v => .ok v
    | none => .error (.keyError key)
  | _ => .error .typeError

/-- Models Python `d.get(key, default)`: the value when present, the default
when absent; an `AttributeError` when `d` is not a dict. -/
def Json.dictGet (j : Json) (key : String) (default : Json) : Except PyError Json :=
  match j with
  | .obj fields => .ok ((fields.lookup key).getD default)
  | _ => .error (.attributeError ("get"))

/-- Models Python truthiness of a JSON-like value: `None`, `False`, `0`, `""`,
`[]` and `{}` are falsy, everything else truthy. -/
def Json.truthy : Json → Bool
  | .null => false
  | .bool b => b
  | .num n => n != 0
  | .str s => !s.isEmpty
  | .arr elements => !elements.isEmpty
  | .obj fields => !fields.isEmpty

/-- Models Python iteration over a JSON-like value (`list.extend(x)` and
`for v in x`): a list yields its elements, a string its characters, a dict its
keys; other values raise `TypeError`. -/
def Json.iterate : Json → Except PyError (List Json)
  | .arr elements => .ok elements
  | .str s => .ok (s.data.map fun c => .str (String.mk [c]))
  | .obj fields => .ok (fields.map fun kv => .str kv.1)
  | _ => .error .typeError

/-- Models the Python `str` check implicit in string concatenation
(`"SEARCH-" + system['name']` raises `TypeError` unless the name is a str). -/
def Json.asString : Json → Except PyError String
  | .str s => .ok s
  | _ => .error .typeError

/-- Total dict lookup with `null` default, used for restating values already
known to be present. -/
def Json.lookupD (j : Json) (key : String) : Json :=
  match j with
  | .obj fields => (fields.lookup key).getD .null
  | _ => .null

/-- Models the outcome of one `requests.post` call as the script observes it:
the HTTP status code, the decoded raw body (`response.content.decode()`), and
the parsed JSON payload (`response.json()`). -/
structure HttpResponse where
  status_code : Nat
  content : String
  payload : Json
deriving Repr

/-- Embeds `opslevel_graphql_query` (lines 184-193) given the HTTP response of
the POST it performs: raises `Exception(f"OpsLevel request failed: {body}")`
whenever the status code is not exactly 200, and otherwise returns the parsed
payload unchanged (the GraphQL-level `errors` field is never inspected). -/
def opslevel_graphql_query (response : HttpResponse) : Except String Json :=
  if response.status_code ≠ 200 then
    .error ("OpsLevel request failed: " ++ response.content)
  else
    .ok response.payload

/-- Names of the module-level GraphQL documents of the script.  The texts of
the documents are opaque to every piece of the script's logic (only the remote
server interprets them), so the embedding identifies them by name:
`systemsQuery` is `OL_SYSTEMS_QUERY`, `domainsQuery` is `OL_DOMAINS_QUERY`,
`systemMutation` is `OL_SYSTEM_MUTATION`, `serviceMutation` is
`OL_SERVICE_MUTATION`, `assignMutation` is `OL_SYSTEMS_SERVICE_ASSIGN_MUTATION`. -/
inductive QueryDoc where
  | systemsQuery
  | domainsQuery
  | systemMutation
  | serviceMutation
  | assignMutation
deriving Repr, DecidableEq

/-- Observable side effects of a run, in program order.  `query` is one call
to `opslevel_graphql_query` (one network POST) with the vars it sends;
`fileWrite` is one `save_to_file`; `consoleOut` a `print` of a plain string;
`printResult` the `print("RESULT,", result)` call; `printConverted` the
`print(f"Domain {name} converted to system with ID {id}")` call (carrying the
interpolated values); `consoleIn` an `input(prompt)` call. -/
inductive Event where
  | query (doc : QueryDoc) (vars : Json)
  | fileWrite (filename : String) (content : String)
  | consoleOut (line : String)
  | printResult (result : Json)
  | printConverted (name : Json) (system_id : Json)
  | consoleIn (prompt : String)
deriving Repr

/-- One call of `opslevel_graphql_query` against the stub transport: consumes
the next stubbed HTTP response, records the network call, and returns the
parsed payload or the raised error. -/
def transport_call (doc : QueryDoc) (vars : Json) :
    List HttpResponse → List HttpResponse × List Event × Except PyError Json
  | [] => ([], [.query doc vars], .error .stubExhausted)
  | response :: rest =>
    (rest, [.query doc vars],
      match opslevel_graphql_query response with
      | .error msg => .error (.transportError msg)
      | .ok result => .ok result)

/-- Models one `input(prompt)` call against a stubbed standard input. -/
def read_line (prompt : String) :
    List String → List String × List Event × Except PyError String
  | [] => ([], [.consoleIn prompt], .error .eofError)
  | line :: rest => (rest, [.consoleIn prompt], .ok line)

/-! ### The JSON codec

Models the Python `json` standard library as the script uses it:
`json.dump(data, f, indent=4)` (with its defaults `ensure_ascii=True` and
separators `(',', ': ')`) for writing snapshots, and `json.loads` for reading
them back.  Numbers are integers; object fields keep insertion order. -/

/-- Four spaces per indentation level, as produced by `indent=4`. -/
def indent_chars (level : Nat) : List Char := List.replicate (4 * level) ' '

/-- The character for a decimal digit value below ten. -/
def digit_char (d : Nat) : Char := Char.ofNat (48 + d)

/-- Decimal digit characters of a natural number, most significant first,
matching Python's `repr` of a non-negative `int`. -/
def nat_chars (n : Nat) : List Char :=
  if _h : n < 10 then [digit_char n]
  else nat_chars (n / 10) ++ [digit_char (n % 10)]
decreasing_by exact Nat.div_lt_self (by omega) (by omega)

/-- Characters of an integer: an optional minus sign, then decimal digits,
matching Python's `repr` of an `int`. -/
def int_chars (n : Int) : List Char :=
  if n < 0 then '-' :: nat_chars n.natAbs else nat_chars n.natAbs

/-- The lowercase hexadecimal digit for a value below sixteen. -/
def hex_digit (d : Nat) : Char :=
  if d < 10 then Char.ofNat (48 + d) else Char.ofNat (87 + d)

/-- Four lowercase hexadecimal digits of a value below `0x10000`, as in the
`\uXXXX` escapes Python emits under `ensure_ascii=True`. -/
def hex4 (n : Nat) : List Char :=
  [hex_digit (n / 4096 % 16), hex_digit (n / 256 % 16),
   hex_digit (n / 16 % 16), hex_digit (n % 16)]

/-- Escapes one character the way Python's `json.dump` does with its default
`ensure_ascii=True`: the seven short escapes, printable ASCII verbatim, and
everything else (controls and all non-ASCII) as `\uXXXX`, astral characters as
a surrogate pair. -/
def escape_char (c : Char) : List Char :=
  if c = '"' then ['\\', '"']
  else if c = '\\' then ['\\', '\\']
  else if c = '\n' then ['\\', 'n']
  else if c = '\r' then ['\\', 'r']
  else if c = '\t' then ['\\', 't']
  else if c = '\x08' then ['\\', 'b']
  else if c = '\x0c' then ['\\', 'f']
  else if 0x20 ≤ c.toNat ∧ c.toNat ≤ 0x7e then [c]
  else if c.toNat < 0x10000 then '\\' :: 'u' :: hex4 c.toNat
  else '\\' :: 'u' :: hex4 (0xd800 + (c.toNat - 0x10000) / 0x400)
       ++ ('\\' :: 'u' :: hex4 (0xdc00 + (c.toNat - 0x10000) % 0x400))

/-- Escapes a string's characters in order. -/
def escape_chars : List Char → List Char
  | [] => []
  | c :: cs => escape_char c ++ escape_chars cs

mutual
/-- Serializes one JSON value at the given indentation level, exactly as
`json.dump(data, f, indent=4)` lays it out: empty containers are `[]` / `{}`;
nonempty containers put every item on its own line indented one level deeper,
with `,` item separators and `: ` after keys, and close on a line at the
container's own level. -/
def json_print : Nat → Json → List Char
  | _, .null => ['n', 'u', 'l', 'l']
  | _, .bool true => ['t', 'r', 'u', 'e']
  | _, .bool false => ['f', 'a', 'l', 's', 'e']
  | _, .num n => int_chars n
  | _, .str s => '"' :: (escape_chars s.data ++ ['"'])
  | _, .arr [] => ['[', ']']
  | level, .arr (x :: xs) =>
    '[' :: '\n' :: (indent_chars (level + 1) ++ (json_print (level + 1) x ++ arr_tail level xs))
  | _, .obj [] => ['\x7b', '\x7d']
  | level, .obj ((k, v) :: fs) =>
    '\x7b' :: '\n' :: (indent_chars (level + 1) ++
      ('"' :: (escape_chars k.data ++ ('"' :: ':' :: ' ' ::
        (json_print (level + 1) v ++ obj_tail level fs)))))
/-- Serializes the items of a nonempty array after its first item: a `,` line
break before each further item, then the closing bracket on the container's
line. -/
def arr_tail : Nat → List Json → List Char
  | level, [] => '\n' :: (indent_chars level ++ [']'])
  | level, x :: xs =>
    ',' :: '\n' :: (indent_chars (level + 1) ++ (json_print (level + 1) x ++ arr_tail level xs))
/-- Serializes the members of a nonempty object after its first member. -/
def obj_tail : Nat → List (String × Json) → List Char
  | level, [] => '\n' :: (indent_chars level ++ ['\x7d'])
  | level, (k, v) :: fs =>
    ',' :: '\n' :: (indent_chars (level + 1) ++
      ('"' :: (escape_chars k.data ++ ('"' :: ':' :: ' ' ::
        (json_print (level + 1) v ++ obj_tail level fs)))))
end

/-- The file content `json.dump(data, f, indent=4)` produces. -/
def json_dumps (data : Json) : String := String.mk (json_print 0 data)

/-- Embeds `save_to_file` (lines 195-198) as the observable effect it has:
one write of the serialized data to the named file. -/
def save_to_file (filename : String) (data : Json) : Event :=
  .fileWrite filename (json_dumps data)

/-- The whitespace characters `json.loads` skips between tokens. -/
def is_space (c : Char) : Bool := c = ' ' || c = '\t' || c = '\n' || c = '\r'

/-- Drops leading whitespace. -/
def ws_drop : List Char → List Char
  | [] => []
  | c :: cs => if is_space c then ws_drop cs else c :: cs

/-- Decimal digit test. -/
def is_digit_char (c : Char) : Bool := 48 ≤ c.toNat && c.toNat ≤ 57

/-- The numeric value of a run of decimal digit characters. -/
def digits_value (ds : List Char) : Nat :=
  ds.foldl (fun a c => 10 * a + (c.toNat - 48)) 0

/-- Reads a nonempty maximal run of decimal digits. -/
def nat_token (cs : List Char) : Option (Nat × List Char) :=
  match cs.takeWhile is_digit_char with
  | [] => none
  | ds => some (digits_value ds, cs.dropWhile is_digit_char)

/-- The value of a hexadecimal digit character (either case), if it is one. -/
def hex_value (c : Char) : Option Nat :=
  if 48 ≤ c.toNat ∧ c.toNat ≤ 57 then some (c.toNat - 48)
  else if 97 ≤ c.toNat ∧ c.toNat ≤ 102 then some (c.toNat - 87)
  else if 65 ≤ c.toNat ∧ c.toNat ≤ 70 then some (c.toNat - 55)
  else none

/-- The value of four hexadecimal digit characters. -/
def hex4_value (a b c d : Char) : Option Nat := do
  pure ((((← hex_value a) * 16 + (← hex_value b)) * 16 + (← hex_value c)) * 16 + (← hex_value d))

/-- Prepends a decoded character to a string-body parse result. -/
def push_char (c : Char) (r : Option (List Char × List Char)) :
    Option (List Char × List Char) :=
  r.map fun p => (c :: p.1, p.2)

/-- The single-character escapes `json.loads` accepts after a backslash. -/
def unescape_short (e : Char) : Option Char :=
  if e = '"' then some '"'
  else if e = '\\' then some '\\'
  else if e = '/' then some '/'
  else if e = 'n' then some '\n'
  else if e = 'r' then some '\r'
  else if e = 't' then some '\t'
  else if e = 'b' then some '\x08'
  else if e = 'f' then some '\x0c'
  else none

/-- Decodes the hexadecimal digits after a `\u` escape, combining a high
surrogate followed by a `\uXXXX` low surrogate into one scalar value.  (Lone
surrogate escapes are rejected: Lean characters are Unicode scalar values, so
a Python `str` holding a lone surrogate is outside the model.) -/
def unescape_u : List Char → Option (Char × List Char)
  | h1 :: h2 :: h3 :: h4 :: r =>
    match hex4_value h1 h2 h3 h4 with
    | none => none
    | some n =>
      if n < 0xd800 ∨ 0xe000 ≤ n then some (Char.ofNat n, r)
      else if n < 0xdc00 then
        match r with
        | b1 :: u1 :: g1 :: g2 :: g3 :: g4 :: r2 =>
          if b1 = '\\' ∧ u1 = 'u' then
            match hex4_value g1 g2 g3 g4 with
            | none => none
            | some m =>
              if 0xdc00 ≤ m ∧ m < 0xe000 then
                some (Char.ofNat (0x10000 + (n - 0xd800) * 0x400 + (m - 0xdc00)), r2)
              else none
          else none
        | _ => none
      else none
  | _ => none

/-- Decoding a `\u` escape consumes at least its four hex digits. -/
theorem unescape_u_length (cs : List Char) (ch : Char) (r2 : List Char)
    (h : unescape_u cs = some (ch, r2)) : r2.length < cs.length := by
  rw [unescape_u.eq_def] at h
  repeat' split at h
  all_goals simp at h
  all_goals obtain ⟨-, rfl⟩ := h
  all_goals simp only [List.length_cons]
  all_goals omega

/-- Parses a JSON string body after its opening quote, decoding escapes the
way Python's `json.loads` does. -/
def string_body : List Char → Option (List Char × List Char)
  | [] => none
  | c :: rest =>
    if c = '"' then some ([], rest)
    else if c = '\\' then
      match rest with
      | [] => none
      | e :: r =>
        if e = 'u' then
          match hu : unescape_u r with
          | none => none
          | some (ch, r2) => push_char ch (string_body r2)
        else
          match unescape_short e with
          | none => none
          | some ch => push_char ch (string_body r)
    else push_char c (string_body rest)
termination_by cs => cs.length
decreasing_by
  all_goals simp only [List.length_cons]
  · have := unescape_u_length _ _ _ hu
    omega
  · omega
  · omega

/-- Parses one object key up to and including its following colon. -/
def member_key (cs : List Char) : Option (String × List Char) :=
  match ws_drop cs with
  | [] => none
  | c :: r =>
    if c = '"' then
      match string_body r with
      | none => none
      | some (ks, r2) =>
        match ws_drop r2 with
        | [] => none
        | c2 :: r3 => if c2 = ':' then some (String.mk ks, r3) else none
    else none

mutual
/-- Parses one JSON value, fuelled (the fuel strictly exceeds the input length
at every call, so it never runs out on well-formed input). -/
def parse_value : Nat → List Char → Option (Json × List Char)
  | 0, _ => none
  | fuel + 1, cs =>
    match ws_drop cs with
    | [] => none
    | c :: r =>
      if c = 'n' then
        match r with
        | 'u' :: 'l' :: 'l' :: r2 => some (.null, r2)
        | _ => none
      else if c = 't' then
        match r with
        | 'r' :: 'u' :: 'e' :: r2 => some (.bool true, r2)
        | _ => none
      else if c = 'f' then
        match r with
        | 'a' :: 'l' :: 's' :: 'e' :: r2 => some (.bool false, r2)
        | _ => none
      else if c = '"' then
        (string_body r).map fun p => (.str (String.mk p.1), p.2)
      else if c = '[' then
        match ws_drop r with
        | [] => none
        | c2 :: r2 =>
          if c2 = ']' then some (.arr [], r2)
          else do
            let (v, r3) ← parse_value fuel (c2 :: r2)
            parse_array_rest fuel r3 [v]
      else if c = '\x7b' then
        match ws_drop r with
        | [] => none
        | c2 :: r2 =>
          if c2 = '\x7d' then some (.obj [], r2)
          else do
            let (k, r3) ← member_key (c2 :: r2)
            let (v, r4) ← parse_value fuel r3
            parse_object_rest fuel r4 [(k, v)]
      else if c = '-' then
        (nat_token r).map fun p => (.num (-(p.1 : Int)), p.2)
      else if is_digit_char c then
        (nat_token (c :: r)).map fun p => (.num (p.1 : Int), p.2)
      else none
/-- Parses the rest of an array after at least one item has been read. -/
def parse_array_rest : Nat → List Char → List Json → Option (Json × List Char)
  | 0, _, _ => none
  | fuel + 1, cs, acc =>
    match ws_drop cs with
    | [] => none
    | c :: r =>
      if c = ']' then some (.arr acc, r)
      else if c = ',' then do
        let (v, r2) ← parse_value fuel r
        parse_array_rest fuel r2 (acc ++ [v])
      else none
/-- Parses the rest of an object after at least one member has been read. -/
def parse_object_rest : Nat → List Char → List (String × Json) → Option (Json × List Char)
  | 0, _, _ => none
  | fuel + 1, cs, acc =>
    match ws_drop cs with
    | [] => none
    | c :: r =>
      if c = '\x7d' then some (.obj acc, r)
      else if c = ',' then do
        let (k, r2) ← member_key r
        let (v, r3) ← parse_value fuel r2
        parse_object_rest fuel r3 (acc ++ [(k, v)])
      else none
end

/-- Models `json.loads`: parses a complete document, requiring only whitespace
after it. -/
def json_loads (s : String) : Option Json :=
  match parse_value (s.data.length + 1) s.data with
  | none => none
  | some (v, rest) => if ws_drop rest = [] then some v else none

/-- Embeds the owner handling at the top of `create_service` (lines 226-229):
`ownerInput = {"id": system['owner']['id']} if system.get('owner', '') else None`.
The `id` field is only read when the owner value is truthy. -/
def service_owner_input (system : Json) : Except PyError Json := do
  let ownerValue ← system.dictGet ("owner") (.str (""))
  if ownerValue.truthy then
    let owner ← system.item ("owner")
    let ownerId ← owner.item ("id")
    pure (.obj [("id", ownerId)])
  else
    pure .null

/-- Embeds the construction of the `variables` dict of `create_service`
(lines 226-236): alias is the literal tag `"SEARCH-"` prepended to the source
name, description defaults to the empty string, `ownerInput` is as computed by
`service_owner_input`. -/
def create_service_variables (system : Json) : Except PyError Json := do
  let ownerInput ← service_owner_input system
  let name ← system.item ("name")
  let nameString ← name.asString
  let description ← system.dictGet ("description") (.str (""))
  pure (.obj [("alias", .str ("SEARCH-" ++ nameString)),
              ("description", description),
              ("ownerInput", ownerInput)])

/-- Embeds `create_service` (lines 224-237): builds the vars, issues the
service-creation mutation, ignores the response payload, and returns `None`. -/
def create_service (system : Json) (stream : List HttpResponse) :
    List HttpResponse × List Event × Except PyError Json :=
  match create_service_variables system with
  | .error e => (stream, [], .error e)
  | .ok vars =>
    match transport_call .serviceMutation vars stream with
    | (stream2, events, .error e) => (stream2, events, .error e)
    | (stream2, events, .ok _result) => (stream2, events, .ok .null)

/-- Embeds the owner handling at the top of `convert_domain_to_system`
(lines 287-290): `owner_id = domain['owner']['id'] if domain.get('owner', '')
else None`. -/
def domain_owner_id (domain : Json) : Except PyError Json := do
  let ownerValue ← domain.dictGet ("owner") (.str (""))
  if ownerValue.truthy then
    let owner ← domain.item ("owner")
    owner.item ("id")
  else
    pure .null

/-- Embeds the construction of the `variables` dict of
`convert_domain_to_system` (lines 287-297): alias is the source name
unmodified, description and note default to the empty string. -/
def convert_domain_variables (domain : Json) : Except PyError Json := do
  let ownerId ← domain_owner_id domain
  let name ← domain.item ("name")
  let description ← domain.dictGet ("description") (.str (""))
  let note ← domain.dictGet ("note") (.str (""))
  pure (.obj [("alias", name),
              ("description", description),
              ("ownerId", ownerId),
              ("note", note)])

/-- Embeds the extraction `result['data']['systemCreate']['system']['id']`
performed by `convert_domain_to_system` at line 301. -/
def extract_created_system_id (result : Json) : Except PyError Json := do
  let data ← result.item ("data")
  let systemCreate ← data.item ("systemCreate")
  let system ← systemCreate.item ("system")
  system.item ("id")

/-- Embeds `convert_domain_to_system` (lines 285-302): builds the vars,
issues the system-creation mutation, prints the raw result, extracts the new
identifier from `data.systemCreate.system.id` (raising if the path is
missing), prints the converted-domain message with that identifier, and falls
off the end of the function — returning Python `None`, not the identifier.
The final print interpolates `domain['name']`, which equals the `alias`
variable already extracted. -/
def convert_domain_to_system (domain : Json) (stream : List HttpResponse) :
    List HttpResponse × List Event × Except PyError Json :=
  match convert_domain_variables domain with
  | .error e => (stream, [], .error e)
  | .ok vars =>
    match transport_call .systemMutation vars stream with
    | (stream2, events, .error e) => (stream2, events, .error e)
    | (stream2, events, .ok result) =>
      match extract_created_system_id result with
      | .error e => (stream2, events ++ [.printResult result], .error e)
      | .ok system_id =>
        (stream2,
         events ++ [.printResult result,
                    .printConverted (vars.lookupD ("alias")) system_id],
         .ok .null)

/-! ### The paginated flows -/

/-- Extracts `result['data']['account'][key]` from a query response (`key` is
`"systems"` or `"domains"`). -/
def connection_of (key : String) (result : Json) : Except PyError Json := do
  let data ← result.item ("data")
  let account ← data.item ("account")
  account.item key

/-- Extracts the iterated `nodes` list of a page, as the loops' statements
`systems = result['data']['account']['systems']['nodes']` followed by
`systems_data.extend(systems)` (or `for system in systems`) observe it. -/
def nodes_of (key : String) (result : Json) : Except PyError (List Json) := do
  let connection ← connection_of key result
  (← connection.item ("nodes")).iterate

/-- Extracts `pageInfo.endCursor` and `pageInfo.hasNextPage` of a page, in the
order the loops read them. -/
def page_info_of (key : String) (result : Json) : Except PyError (Json × Json) := do
  let connection ← connection_of key result
  let pageInfo ← connection.item ("pageInfo")
  let endCursor ← pageInfo.item ("endCursor")
  let hasNextPage ← pageInfo.item ("hasNextPage")
  pure (endCursor, hasNextPage)

/-- Embeds the shared pagination loop of `fetch_and_save_systems` (lines
202-216) and `fetch_and_save_domains` (lines 262-276): while `has_next_page`,
query with `{"endCursor": end_cursor}` (initially `None`), extend the
accumulator with the page's nodes, and advance the cursor from
`pageInfo.endCursor`.  The first argument is the stub transport; the loop
consumes one stubbed response per iteration. -/
def fetch_pages (key : String) (doc : QueryDoc) :
    List HttpResponse → Json → List Json → List Event →
    List Event × Except PyError (List Json)
  | [], end_cursor, _acc, events =>
    (events ++ [.query doc (.obj [("endCursor", end_cursor)])], .error .stubExhausted)
  | response :: rest, end_cursor, acc, events =>
    let events := events ++ [.query doc (.obj [("endCursor", end_cursor)])]
    match opslevel_graphql_query response with
    | .error msg => (events, .error (.transportError msg))
    | .ok result =>
      match nodes_of key result with
      | .error e => (events, .error e)
      | .ok nodes =>
        match page_info_of key result with
        | .error e => (events, .error e)
        | .ok (endCursor, hasNextPage) =>
          if hasNextPage.truthy then
            fetch_pages key doc rest endCursor (acc ++ nodes) events
          else
            (events, .ok (acc ++ nodes))

/-- Embeds `fetch_and_save_systems` (lines 200-222): paginate all systems,
then write them to `systems_data_<date>.json` and report it.  `date_suffix`
stands for `datetime.now().strftime('%Y%m%d')`. -/
def fetch_and_save_systems (responses : List HttpResponse) (date_suffix : String) :
    List Event × Except PyError Json :=
  match fetch_pages ("systems") .systemsQuery responses .null [] [] with
  | (events, .error e) => (events, .error e)
  | (events, .ok systems_data) =>
    let filename := "systems_data_" ++ date_suffix ++ ".json"
    (events ++ [save_to_file filename (.arr systems_data),
                .consoleOut ("Systems data saved to " ++ filename)],
     .ok .null)

/-- Embeds `fetch_and_save_domains` (lines 260-282), the domains twin of
`fetch_and_save_systems`. -/
def fetch_and_save_domains (responses : List HttpResponse) (date_suffix : String) :
    List Event × Except PyError Json :=
  match fetch_pages ("domains") .domainsQuery responses .null [] [] with
  | (events, .error e) => (events, .error e)
  | (events, .ok domains_data) =>
    let filename := "domains_data_" ++ date_suffix ++ ".json"
    (events ++ [save_to_file filename (.arr domains_data),
                .consoleOut ("Domains data saved to " ++ filename)],
     .ok .null)

/-- Runs a per-record action (`create_service`, `convert_domain_to_system`, or
`update_system_with_service`) over each node of a page in order, threading the
stub transport; a record's exception aborts the remainder of the batch. -/
def run_each (act : Json → List HttpResponse → List HttpResponse × List Event × Except PyError Json) :
    List Json → List HttpResponse → List Event →
    List HttpResponse × List Event × Except PyError Json
  | [], stream, events => (stream, events, .ok .null)
  | node :: nodes, stream, events =>
    match act node stream with
    | (stream2, acted, .error e) => (stream2, events ++ acted, .error e)
    | (stream2, acted, .ok _) => run_each act nodes stream2 (events ++ acted)

/-- A per-record action consumes stubbed responses, never creates them. -/
theorem run_each_stream_length
    (act : Json → List HttpResponse → List HttpResponse × List Event × Except PyError Json)
    (hact : ∀ node stream, ((act node stream).1).length ≤ stream.length) :
    ∀ nodes stream events, ((run_each act nodes stream events).1).length ≤ stream.length := by
  intro nodes
  induction nodes with
  | nil => intro stream events; simp [run_each]
  | cons node nodes ih =>
    intro stream events
    simp only [run_each]
    rcases hres : act node stream with ⟨stream2, acted, out⟩
    have hlen : stream2.length ≤ stream.length := by
      have := hact node stream
      rw [hres] at this
      exact this
    cases out with
    | error e => simpa using hlen
    | ok v =>
      simp only
      exact le_trans (ih stream2 (events ++ acted)) hlen

/-- `create_service` consumes at most the responses it is given. -/
theorem create_service_stream_length (system : Json) (stream : List HttpResponse) :
    ((create_service system stream).1).length ≤ stream.length := by
  rcases system <;>
    simp only [create_service] <;>
    rcases h : create_service_variables _ with e | v <;>
    simp only [] <;>
    first
      | rfl
      | (rcases stream with _ | ⟨r, rest⟩ <;>
          simp [transport_call] <;>
          rcases opslevel_graphql_query r with m | j <;> simp)

/-- `convert_domain_to_system` consumes at most the responses it is given. -/
theorem convert_domain_stream_length (domain : Json) (stream : List HttpResponse) :
    ((convert_domain_to_system domain stream).1).length ≤ stream.length := by
  simp only [convert_domain_to_system]
  rcases convert_domain_variables domain with e | v
  · simp
  · simp only []
    rcases stream with _ | ⟨r, rest⟩
    · simp [transport_call]
    · simp only [transport_call]
      rcases opslevel_graphql_query r with m | j
      · simp
      · simp only []
        rcases extract_created_system_id j with e2 | sid <;> simp

/-- Embeds the loop of `convert_systems_to_services` (lines 240-258): fetch a
page of systems, call `create_service` on each, advance the cursor, repeat
while `hasNextPage` is truthy. -/
def convert_systems_loop :
    List HttpResponse → Json → List Event → List Event × Except PyError Json
  | [], end_cursor, events =>
    (events ++ [.query .systemsQuery (.obj [("endCursor", end_cursor)])],
     .error .stubExhausted)
  | response :: rest, end_cursor, events =>
    let events := events ++ [.query .systemsQuery (.obj [("endCursor", end_cursor)])]
    match opslevel_graphql_query response with
    | .error msg => (events, .error (.transportError msg))
    | .ok result =>
      match nodes_of ("systems") result with
      | .error e => (events, .error e)
      | .ok systems =>
        match hrun : run_each create_service systems rest events with
        | (rest2, events2, .error e) => (events2, .error e)
        | (rest2, events2, .ok _) =>
          match page_info_of ("systems") result with
          | .error e => (events2, .error e)
          | .ok (endCursor, hasNextPage) =>
            if hasNextPage.truthy then
              convert_systems_loop rest2 endCursor events2
            else
              (events2, .ok .null)
termination_by stream _ _ => stream.length
decreasing_by
  simp only [List.length_cons]
  have hlen := run_each_stream_length create_service
    (fun node s => create_service_stream_length node s) systems rest events
  rw [hrun] at hlen
  simp only [List.length_cons] at hlen ⊢
  omega

/-- Embeds `convert_systems_to_services` (lines 240-258). -/
def convert_systems_to_services (responses : List HttpResponse) :
    List Event × Except PyError Json :=
  convert_systems_loop responses .null []

/-- Embeds the loop of `convert_domains_to_systems` (lines 304-322). -/
def convert_domains_loop :
    List HttpResponse → Json → List Event → List Event × Except PyError Json
  | [], end_cursor, events =>
    (events ++ [.query .domainsQuery (.obj [("endCursor", end_cursor)])],
     .error .stubExhausted)
  | response :: rest, end_cursor, events =>
    let events := events ++ [.query .domainsQuery (.obj [("endCursor", end_cursor)])]
    match opslevel_graphql_query response with
    | .error msg => (events, .error (.transportError msg))
    | .ok result =>
      match nodes_of ("domains") result with
      | .error e => (events, .error e)
      | .ok domains =>
        match hrun : run_each convert_domain_to_system domains rest events with
        | (rest2, events2, .error e) => (events2, .error e)
        | (rest2, events2, .ok _) =>
          match page_info_of ("domains") result with
          | .error e => (events2, .error e)
          | .ok (endCursor, hasNextPage) =>
            if hasNextPage.truthy then
              convert_domains_loop rest2 endCursor events2
            else
              (events2, .ok .null)
termination_by stream _ _ => stream.length
decreasing_by
  simp only [List.length_cons]
  have hlen := run_each_stream_length convert_domain_to_system
    (fun node s => convert_domain_stream_length node s) domains rest events
  rw [hrun] at hlen
  simp only [List.length_cons] at hlen ⊢
  omega

/-- Embeds `convert_domains_to_systems` (lines 304-322). -/
def convert_domains_to_systems (responses : List HttpResponse) :
    List Event × Except PyError Json :=
  convert_domains_loop responses .null []

/-- Modelled from the spec: `load_domains_from_file` is called by
`update_systems_with_services` (line 328) but defined nowhere in the
repository.  Per the spec (§4.5, §7), a missing snapshot file during
reconciliation surfaces as a `FileNotFoundError`-class failure, so we model
the call as reading and parsing the snapshot file at the given path against a
stubbed filesystem, raising `fileNotFoundError` when the path is absent.
`files` maps paths to file contents. -/
def load_domains_from_file (files : List (String × String)) (path : String) :
    Except PyError Json :=
  match files.lookup path with
  | none => .error (.fileNotFoundError path)
  | some content =>
    match json_loads content with
    | some data => .ok data
    | none => .error .typeError

/-- The script calls `update_system_with_service` (line 345) without ever
defining it — the spec notes the reconciliation logic is left unimplemented —
so reaching the call raises a `NameError`. -/
def update_system_with_service (_system : Json) (stream : List HttpResponse) :
    List HttpResponse × List Event × Except PyError Json :=
  (stream, [], .error (.nameError ("update_system_with_service")))

/-- Embeds the loop of `update_systems_with_services` (lines 333-350), which
mirrors `convert_systems_to_services` with `update_system_with_service` as the
per-record call. -/
def update_systems_loop :
    List HttpResponse → Json → List Event → List Event × Except PyError Json
  | [], end_cursor, events =>
    (events ++ [.query .systemsQuery (.obj [("endCursor", end_cursor)])],
     .error .stubExhausted)
  | response :: rest, end_cursor, events =>
    let events := events ++ [.query .systemsQuery (.obj [("endCursor", end_cursor)])]
    match opslevel_graphql_query response with
    | .error msg => (events, .error (.transportError msg))
    | .ok result =>
      match nodes_of ("systems") result with
      | .error e => (events, .error e)
      | .ok systems =>
        match hrun : run_each update_system_with_service systems rest events with
        | (rest2, events2, .error e) => (events2, .error e)
        | (rest2, events2, .ok _) =>
          match page_info_of ("systems") result with
          | .error e => (events2, .error e)
          | .ok (endCursor, hasNextPage) =>
            if hasNextPage.truthy then
              update_systems_loop rest2 endCursor events2
            else
              (events2, .ok .null)
termination_by stream _ _ => stream.length
decreasing_by
  simp only [List.length_cons]
  have hlen := run_each_stream_length update_system_with_service
    (fun _node s => le_refl s.length) systems rest events
  rw [hrun] at hlen
  simp only [List.length_cons] at hlen ⊢
  omega

/-- Embeds `update_systems_with_services` (lines 324-350): prompt for the
snapshot path; on `FileNotFoundError` from `load_domains_from_file`, print the
not-found message and return; otherwise run the reconciliation loop. -/
def update_systems_with_services (stdin : List String)
    (files : List (String × String)) (responses : List HttpResponse) :
    List Event × Except PyError Json :=
  match read_line ("Please enter the path to the domains_data.json file: ") stdin with
  | (_, events, .error e) => (events, .error e)
  | (_, events, .ok path) =>
    match load_domains_from_file files path with
    | .error (.fileNotFoundError _) =>
      (events ++ [.consoleOut ("File " ++ path ++ " not found. Please try again.")],
       .ok .null)
    | .error e => (events, .error e)
    | .ok _domains_data =>
      match update_systems_loop responses .null [] with
      | (loopEvents, out) => (events ++ loopEvents, out)

/-- The external world a run of `main` observes: stubbed standard input, the
stub transport, the stubbed filesystem, and today's date suffix. -/
structure World where
  stdin : List String
  responses : List HttpResponse
  files : List (String × String)
  today : String

/-- The fixed menu `main` prints before reading the user's choice. -/
def menu_events : List Event :=
  [.consoleOut ("Select an option:"),
   .consoleOut ("1. Fetch systems and write to a file."),
   .consoleOut ("2. Convert systems to services."),
   .consoleOut ("3. Fetch domains and write to a file."),
   .consoleOut ("4. Convert domains to systems.")]

/-- The message `main` prints on an invalid menu choice (line 374). -/
def invalid_choice_message : String :=
  "Invalid choice. Please enter 1, 2, 3, 4, or 5."

/-- Embeds `main` (lines 354-374): print the menu, read one choice, dispatch
to the selected flow exactly once (choice `'5'` reaches the otherwise unlisted
`update_systems_with_services`), and on any other input print the
invalid-choice message and return. -/
def main (w : World) : List Event × Except PyError Json :=
  match read_line ("Enter your choice (1/2/3/4): ") w.stdin with
  | (_, inputEvents, .error e) => (menu_events ++ inputEvents, .error e)
  | (stdinRest, inputEvents, .ok choice) =>
    let events := menu_events ++ inputEvents
    if choice = "1" then
      match fetch_and_save_systems w.responses w.today with
      | (es, out) => (events ++ es, out)
    else if choice = "2" then
      match convert_systems_to_services w.responses with
      | (es, out) => (events ++ es, out)
    else if choice = "3" then
      match fetch_and_save_domains w.responses w.today with
      | (es, out) => (events ++ es, out)
    else if choice = "4" then
      match convert_domains_to_systems w.responses with
      | (es, out) => (events ++ es, out)
    else if choice = "5" then
      match update_systems_with_services stdinRest w.files w.responses with
      | (es, out) => (events ++ es, out)
    else
      (events ++ [.consoleOut invalid_choice_message], .ok .null)

/-! ### Claim C4: transport error behavior -/

/-- C4 counterexample: the claim says `opslevel_graphql_query` raises exactly
when the HTTP status is not a success (non-2xx), but the code raises whenever
the status is not exactly 200: status 201 is a 2xx success, yet the call
raises, with the body in the message. -/
theorem opslevel_query_raises_on_2xx_201 :
    opslevel_graphql_query ⟨201, ("created"), .null⟩
      = .error ("OpsLevel request failed: created")
    ∧ 200 ≤ 201 ∧ 201 ≤ 299 :=
  ⟨rfl, by omega, by omega⟩

/-- C4 (amended): `opslevel_graphql_query` raises exactly when the HTTP status
differs from 200, with the raw response body in the message; on status 200 it
returns the parsed payload unchanged, never inspecting or failing on a
GraphQL-level `errors` field. -/
theorem opslevel_query_spec (response : HttpResponse) :
    (opslevel_graphql_query response = .ok response.payload
      ↔ response.status_code = 200)
    ∧ (response.status_code ≠ 200 →
        opslevel_graphql_query response
          = .error ("OpsLevel request failed: " ++ response.content)) := by
  constructor
  · constructor
    · intro h
      by_contra hne
      simp [opslevel_graphql_query, hne] at h
    · intro h
      simp [opslevel_graphql_query, h]
  · intro h
    simp [opslevel_graphql_query, h]

/-- C4 witness: the amended claim evaluated at a concrete 500-status response
and at a concrete 200-status response carrying a GraphQL `errors` field. -/
theorem opslevel_query_spec_witness :
    opslevel_graphql_query ⟨500, ("boom"), .null⟩
      = .error ("OpsLevel request failed: boom")
    ∧ opslevel_graphql_query ⟨200, (""), .obj [("errors", .arr [.str ("bad")])]⟩
      = .ok (.obj [("errors", .arr [.str ("bad")])]) :=
  ⟨(opslevel_query_spec ⟨500, ("boom"), .null⟩).2 (by decide),
   (opslevel_query_spec ⟨200, (""), .obj [("errors", .arr [.str ("bad")])]⟩).1.mpr rfl⟩

/-! ### Claims C2, C3, C5, C10: the entity converters -/

/-- The domain record of the spec's domain-to-system example. -/
def payments_domain : Json :=
  .obj [("name", .str ("Payments")), ("description", .str ("d")),
        ("owner", .obj [("id", .str ("T1"))]), ("note", .str ("n"))]

/-- A well-formed creation response whose new system id is `"S1"`. -/
def payments_response : HttpResponse :=
  ⟨200, (""),
   .obj [("data", .obj [("systemCreate", .obj [("system", .obj [("id", .str ("S1"))])])])]⟩

/-- C2 counterexample: the claim says `convert_domain_to_system` returns the
identifier extracted from `data.systemCreate.system.id`; on the spec's own
example the extracted identifier is `"S1"`, but the Python function has no
`return` statement — it prints the identifier and returns `None`. -/
theorem convert_domain_returns_none_counterexample :
    (convert_domain_to_system payments_domain [payments_response]).2.2 = .ok .null
    ∧ extract_created_system_id payments_response.payload = .ok (.str ("S1"))
    ∧ (Except.ok Json.null : Except PyError Json) ≠ .ok (.str ("S1")) := by
  refine ⟨rfl, rfl, ?_⟩
  simp

/-- C2 (amended): for every domain record with name, description, a nonempty
owner mapping carrying an id, and note present, `convert_domain_to_system`
sends the creation mutation with variables
`{alias: name, description: description, ownerId: owner.id, note: note}`,
extracts the new identifier from `data.systemCreate.system.id` of the response
and prints it; the function itself returns `None`, not the identifier. -/
theorem convert_domain_to_system_spec
    (fs : List (String × Json)) (name description note : Json)
    (ofs : List (String × Json)) (oid : Json)
    (response : HttpResponse) (rest : List HttpResponse) (sid : Json)
    (hname : fs.lookup ("name") = some name)
    (hdesc : fs.lookup ("description") = some description)
    (howner : fs.lookup ("owner") = some (.obj ofs))
    (hofs : ofs ≠ [])
    (hoid : ofs.lookup ("id") = some oid)
    (hnote : fs.lookup ("note") = some note)
    (hstatus : response.status_code = 200)
    (hsid : extract_created_system_id response.payload = .ok sid) :
    convert_domain_to_system (.obj fs) (response :: rest)
      = (rest,
         [.query .systemMutation
            (.obj [("alias", name), ("description", description),
                   ("ownerId", oid), ("note", note)]),
          .printResult response.payload,
          .printConverted name sid],
         .ok .null) := by
  have htruthy : (Json.obj ofs).truthy = true := by
    simp [Json.truthy, List.isEmpty_iff, hofs]
  have hvars : convert_domain_variables (.obj fs)
      = .ok (.obj [("alias", name), ("description", description),
                   ("ownerId", oid), ("note", note)]) := by
    simp [convert_domain_variables, domain_owner_id, Json.dictGet, Json.item,
          hname, hdesc, howner, hnote, htruthy, hoid, bind, Except.bind, pure, Except.pure]
  have hq : opslevel_graphql_query response = .ok response.payload := by
    simp [opslevel_graphql_query, hstatus]
  simp [convert_domain_to_system, hvars, transport_call, hq, hsid,
        Json.lookupD, List.lookup]

/-- C2 witness: the amended claim evaluated on the spec's Payments example. -/
theorem convert_domain_to_system_spec_witness :
    convert_domain_to_system payments_domain [payments_response]
      = ([],
         [.query .systemMutation
            (.obj [("alias", .str ("Payments")), ("description", .str ("d")),
                   ("ownerId", .str ("T1")), ("note", .str ("n"))]),
          .printResult payments_response.payload,
          .printConverted (.str ("Payments")) (.str ("S1"))],
         .ok .null) :=
  convert_domain_to_system_spec
    [("name", .str ("Payments")), ("description", .str ("d")),
     ("owner", .obj [("id", .str ("T1"))]), ("note", .str ("n"))]
    (.str ("Payments")) (.str ("d")) (.str ("n"))
    [("id", .str ("T1"))] (.str ("T1"))
    payments_response [] (.str ("S1"))
    rfl rfl rfl (by simp) rfl rfl rfl rfl

/-- The system record of the spec's system-to-service example: a name and no
owner. -/
def checkout_system : Json := .obj [("name", .str ("Checkout"))]

/-- C3 counterexample: the claim says that with the owner absent the
`ownerInput` variable is absent from the mutation variables; on the spec's own
Checkout example the variables dict does carry the key `ownerInput` — mapped
to `None` (`null`), because `create_service` always stores the key. -/
theorem create_service_ownerInput_present_counterexample :
    create_service_variables checkout_system
      = .ok (.obj [("alias", .str ("SEARCH-Checkout")),
                   ("description", .str ("")),
                   ("ownerInput", .null)])
    ∧ ([("alias", Json.str ("SEARCH-Checkout")),
        ("description", Json.str ("")),
        ("ownerInput", Json.null)]).lookup ("ownerInput") = some .null := by
  constructor
  · rfl
  · rfl

/-- C3 (amended): for every system record, `create_service` sends the
service-creation mutation with alias `"SEARCH-"` prepended to the source name
and the source description carried over (defaulting to `""`); when the owner
is present (truthy) with an id, the `ownerInput` variable is exactly
`{id: owner id}`, and when the owner is absent or falsy the `ownerInput`
variable is sent as `null` (the key is present with a null value; no error). -/
theorem create_service_spec (fs : List (String × Json)) (name : String)
    (response : HttpResponse) (rest : List HttpResponse)
    (hname : fs.lookup ("name") = some (.str name))
    (hstatus : response.status_code = 200) :
    (∀ (ofs : List (String × Json)) (oid : Json),
       fs.lookup ("owner") = some (.obj ofs) → ofs ≠ [] →
       ofs.lookup ("id") = some oid →
       create_service (.obj fs) (response :: rest)
         = (rest,
            [.query .serviceMutation
               (.obj [("alias", .str ("SEARCH-" ++ name)),
                      ("description", (fs.lookup ("description")).getD (.str (""))),
                      ("ownerInput", .obj [("id", oid)])])],
            .ok .null))
    ∧ (((fs.lookup ("owner")).getD (.str (""))).truthy = false →
       create_service (.obj fs) (response :: rest)
         = (rest,
            [.query .serviceMutation
               (.obj [("alias", .str ("SEARCH-" ++ name)),
                      ("description", (fs.lookup ("description")).getD (.str (""))),
                      ("ownerInput", .null)])],
            .ok .null)) := by
  have hq : opslevel_graphql_query response = .ok response.payload := by
    simp [opslevel_graphql_query, hstatus]
  constructor
  · intro ofs oid howner hofs hoid
    have htruthy : (Json.obj ofs).truthy = true := by
      simp [Json.truthy, List.isEmpty_iff, hofs]
    have hvars : create_service_variables (.obj fs)
        = .ok (.obj [("alias", .str ("SEARCH-" ++ name)),
                     ("description", (fs.lookup ("description")).getD (.str (""))),
                     ("ownerInput", .obj [("id", oid)])]) := by
      simp [create_service_variables, service_owner_input, Json.dictGet, Json.item,
            Json.asString, hname, howner, htruthy, hoid, bind, Except.bind, pure, Except.pure]
    simp [create_service, hvars, transport_call, hq]
  · intro hfalsy
    have hvars : create_service_variables (.obj fs)
        = .ok (.obj [("alias", .str ("SEARCH-" ++ name)),
                     ("description", (fs.lookup ("description")).getD (.str (""))),
                     ("ownerInput", .null)]) := by
      simp [create_service_variables, service_owner_input, Json.dictGet, Json.item,
            Json.asString, hname, hfalsy, bind, Except.bind, pure, Except.pure]
    simp [create_service, hvars, transport_call, hq]

/-- C3 witness: the amended claim evaluated on the spec's Checkout example
(owner absent) and on an owned record. -/
theorem create_service_spec_witness :
    create_service checkout_system [⟨200, (""), .null⟩]
      = ([],
         [.query .serviceMutation
            (.obj [("alias", .str ("SEARCH-Checkout")),
                   ("description", .str ("")),
                   ("ownerInput", .null)])],
         .ok .null)
    ∧ create_service (.obj [("name", .str ("Api")), ("owner", .obj [("id", .str ("T9"))])])
        [⟨200, (""), .null⟩]
      = ([],
         [.query .serviceMutation
            (.obj [("alias", .str ("SEARCH-Api")),
                   ("description", .str ("")),
                   ("ownerInput", .obj [("id", .str ("T9"))])])],
         .ok .null) :=
  ⟨(create_service_spec [("name", .str ("Checkout"))] ("Checkout")
      ⟨200, (""), .null⟩ [] rfl rfl).2 rfl,
   (create_service_spec [("name", .str ("Api")), ("owner", .obj [("id", .str ("T9"))])]
      ("Api") ⟨200, (""), .null⟩ [] rfl rfl).1
     [("id", .str ("T9"))] (.str ("T9")) rfl (by simp) rfl⟩

/-- C5: whenever the mutation response parses but lacks the identifier at
`data.systemCreate.system.id`, `convert_domain_to_system` propagates an error
(the Python `KeyError`/`TypeError` the lookup raises, the spec's
`ConversionError` class) — it never returns normally. -/
theorem convert_domain_error_on_missing_id (domain : Json)
    (response : HttpResponse) (rest : List HttpResponse) (e : PyError)
    (hstatus : response.status_code = 200)
    (hmiss : extract_created_system_id response.payload = .error e) :
    ∃ e2, (convert_domain_to_system domain (response :: rest)).2.2
      = .error e2 := by
  have hq : opslevel_graphql_query response = .ok response.payload := by
    simp [opslevel_graphql_query, hstatus]
  rcases hvars : convert_domain_variables domain with e3 | v
  · exact ⟨e3, by simp [convert_domain_to_system, hvars]⟩
  · exact ⟨e, by simp [convert_domain_to_system, hvars, transport_call, hq, hmiss]⟩

/-- C5 witness: a creation response carrying GraphQL validation errors instead
of a created system makes `convert_domain_to_system` fail. -/
theorem convert_domain_error_on_missing_id_witness :
    ∃ e2, (convert_domain_to_system payments_domain
      [⟨200, (""), .obj [("data", .obj [("systemCreate", .null)])]⟩]).2.2
        = .error e2 :=
  convert_domain_error_on_missing_id payments_domain
    ⟨200, (""), .obj [("data", .obj [("systemCreate", .null)])]⟩ [] .typeError
    rfl rfl

/-- C10: for every source record (a dict with a `name`) whose `owner` field is
missing, `None`, an empty mapping, or an empty string, the owner handling of
both converters reads no `id` field and sets the owner variable
(`ownerInput` / `ownerId`) to `null`, and both variable builders succeed
without raising. -/
theorem falsy_owner_safe (fs : List (String × Json)) (name : String)
    (hname : fs.lookup ("name") = some (.str name))
    (howner : fs.lookup ("owner") = none ∨ fs.lookup ("owner") = some .null
      ∨ fs.lookup ("owner") = some (.obj []) ∨ fs.lookup ("owner") = some (.str (""))) :
    service_owner_input (.obj fs) = .ok .null
    ∧ domain_owner_id (.obj fs) = .ok .null
    ∧ create_service_variables (.obj fs)
        = .ok (.obj [("alias", .str ("SEARCH-" ++ name)),
                     ("description", (fs.lookup ("description")).getD (.str (""))),
                     ("ownerInput", .null)])
    ∧ convert_domain_variables (.obj fs)
        = .ok (.obj [("alias", .str name),
                     ("description", (fs.lookup ("description")).getD (.str (""))),
                     ("ownerId", .null),
                     ("note", (fs.lookup ("note")).getD (.str ("")))]) := by
  have hfalsy : ((fs.lookup ("owner")).getD (.str (""))).truthy = false := by
    rcases howner with h | h | h | h <;> simp [h, Json.truthy] <;> decide
  refine ⟨?_, ?_, ?_, ?_⟩ <;>
    simp [service_owner_input, domain_owner_id, create_service_variables,
          convert_domain_variables, Json.dictGet, Json.item, Json.asString,
          hname, hfalsy, bind, Except.bind, pure, Except.pure]

/-- C10 witness: the claim evaluated on records with each falsy owner shape. -/
theorem falsy_owner_safe_witness :
    service_owner_input (.obj [("name", .str ("A"))]) = .ok .null
    ∧ domain_owner_id (.obj [("name", .str ("B")), ("owner", .null)]) = .ok .null
    ∧ create_service_variables (.obj [("name", .str ("C")), ("owner", .obj [])])
        = .ok (.obj [("alias", .str ("SEARCH-C")), ("description", .str ("")),
                     ("ownerInput", .null)])
    ∧ convert_domain_variables (.obj [("name", .str ("D")), ("owner", .str (""))])
        = .ok (.obj [("alias", .str ("D")), ("description", .str ("")),
                     ("ownerId", .null), ("note", .str (""))]) :=
  ⟨(falsy_owner_safe [("name", .str ("A"))] ("A") rfl (Or.inl rfl)).1,
   (falsy_owner_safe [("name", .str ("B")), ("owner", .null)] ("B") rfl
      (Or.inr (Or.inl rfl))).2.1,
   (falsy_owner_safe [("name", .str ("C")), ("owner", .obj [])] ("C") rfl
      (Or.inr (Or.inr (Or.inl rfl)))).2.2.1,
   (falsy_owner_safe [("name", .str ("D")), ("owner", .str (""))] ("D") rfl
      (Or.inr (Or.inr (Or.inr rfl)))).2.2.2⟩

/-! ### Claim C7: the dispatcher on an invalid choice -/

/-- C7: for every menu input that selects none of the defined operations,
`main` prints the menu, reads the one choice, prints the invalid-choice
message, and returns — the whole trace is exactly that, so no network call is
made and no further prompt is issued. -/
theorem main_invalid_choice (w : World) (choice : String) (rest : List String)
    (hstdin : w.stdin = choice :: rest)
    (h1 : choice ≠ "1") (h2 : choice ≠ "2") (h3 : choice ≠ "3")
    (h4 : choice ≠ "4") (h5 : choice ≠ "5") :
    main w = (menu_events
               ++ [.consoleIn ("Enter your choice (1/2/3/4): "),
                   .consoleOut invalid_choice_message], .ok .null)
    ∧ ∀ doc vars, Event.query doc vars ∉ (main w).1 := by
  have heq : main w = (menu_events
      ++ [.consoleIn ("Enter your choice (1/2/3/4): "),
          .consoleOut invalid_choice_message], .ok .null) := by
    simp [main, read_line, hstdin, h1, h2, h3, h4, h5]
  refine ⟨heq, ?_⟩
  intro doc vars
  rw [heq]
  simp [menu_events]

/-- C7 witness: the claim evaluated at the concrete choice `"x"`. -/
theorem main_invalid_choice_witness :
    main ⟨[("x")], [], [], ("20240101")⟩
      = (menu_events
          ++ [.consoleIn ("Enter your choice (1/2/3/4): "),
              .consoleOut invalid_choice_message], .ok .null) :=
  (main_invalid_choice ⟨[("x")], [], [], ("20240101")⟩ ("x") [] rfl
    (by decide) (by decide) (by decide) (by decide) (by decide)).1

/-! ### Claim C8: missing snapshot file during reconciliation -/

/-- C8: when the snapshot file named on standard input does not exist,
`update_systems_with_services` catches the `FileNotFoundError`, prints the
not-found message, and returns normally — the whole trace is the prompt and
the message, so the error does not propagate and no network call is made. -/
theorem update_missing_snapshot_reported (path : String) (stdin : List String)
    (files : List (String × String)) (responses : List HttpResponse)
    (hmissing : files.lookup path = none) :
    update_systems_with_services (path :: stdin) files responses
      = ([.consoleIn ("Please enter the path to the domains_data.json file: "),
          .consoleOut ("File " ++ path ++ " not found. Please try again.")],
         .ok .null)
    ∧ ∀ doc vars,
        Event.query doc vars ∉ (update_systems_with_services (path :: stdin) files responses).1 := by
  have heq : update_systems_with_services (path :: stdin) files responses
      = ([.consoleIn ("Please enter the path to the domains_data.json file: "),
          .consoleOut ("File " ++ path ++ " not found. Please try again.")],
         .ok .null) := by
    simp [update_systems_with_services, read_line, load_domains_from_file, hmissing]
  refine ⟨heq, ?_⟩
  intro doc vars
  rw [heq]
  simp

/-- C8 witness: the claim evaluated at a concrete missing path against an
empty stubbed filesystem. -/
theorem update_missing_snapshot_reported_witness :
    update_systems_with_services [("nope.json")] [] []
      = ([.consoleIn ("Please enter the path to the domains_data.json file: "),
          .consoleOut ("File nope.json not found. Please try again.")],
         .ok .null) :=
  (update_missing_snapshot_reported ("nope.json") [] [] [] rfl).1

/-! ### Claims C1 and C9: pagination and snapshot atomicity -/

/-- A well-formed page response for connection `key`: HTTP success with a
payload carrying an iterable `nodes` list and a `pageInfo` with the given
cursor and boolean has-next flag. -/
structure GoodPage (key : String) (response : HttpResponse)
    (nodes : List Json) (endCursor : Json) (hasNext : Bool) : Prop where
  status : response.status_code = 200
  nodes_ok : nodes_of key response.payload = .ok nodes
  info_ok : page_info_of key response.payload = .ok (endCursor, .bool hasNext)

/-- A well-formed transport run for connection `key`: one response per page,
each page carrying its nodes and end cursor, every page but the last flagged
`hasNextPage = true` and the last flagged `false`. -/
def good_run (key : String) : List HttpResponse → List (List Json × Json) → Prop
  | [response], [page] => GoodPage key response page.1 page.2 false
  | response :: r2 :: rs, page :: p2 :: ps =>
    GoodPage key response page.1 page.2 true ∧ good_run key (r2 :: rs) (p2 :: ps)
  | _, _ => False

/-- The network calls a well-formed paginated fetch makes: one query per page,
the first with the given (absent) cursor, each following query with the
previous page's end cursor. -/
def page_queries (doc : QueryDoc) (cursor : Json) : List (List Json × Json) → List Event
  | [] => []
  | page :: ps => .query doc (.obj [("endCursor", cursor)]) :: page_queries doc page.2 ps

/-- One step of the pagination loop on a well-formed page: record the query,
extend the accumulator, and either recurse with the advanced cursor or stop. -/
theorem fetch_pages_step (key : String) (doc : QueryDoc) (response : HttpResponse)
    (rest : List HttpResponse) (cursor : Json) (acc : List Json) (events : List Event)
    (nodes : List Json) (endCursor : Json) (hasNext : Bool)
    (hstatus : response.status_code = 200)
    (hnodes : nodes_of key response.payload = .ok nodes)
    (hinfo : page_info_of key response.payload = .ok (endCursor, .bool hasNext)) :
    fetch_pages key doc (response :: rest) cursor acc events
      = if hasNext then
          fetch_pages key doc rest endCursor (acc ++ nodes)
            (events ++ [.query doc (.obj [("endCursor", cursor)])])
        else
          (events ++ [.query doc (.obj [("endCursor", cursor)])], .ok (acc ++ nodes)) := by
  have hq : opslevel_graphql_query response = .ok response.payload := by
    simp [opslevel_graphql_query, hstatus]
  cases hasNext <;> simp [fetch_pages, hq, hnodes, hinfo, Json.truthy]

/-- The pagination loop on a well-formed run: terminates with exactly one call
per page (cursors advancing through each page's end cursor) and accumulates
the concatenation of the pages' nodes lists in order. -/
theorem fetch_pages_good (key : String) (doc : QueryDoc) :
    ∀ (responses : List HttpResponse) (pages : List (List Json × Json))
      (cursor : Json) (acc : List Json) (events : List Event),
      good_run key responses pages →
      fetch_pages key doc responses cursor acc events
        = (events ++ page_queries doc cursor pages,
           .ok (acc ++ (pages.map Prod.fst).flatten))
  | [response], [page], cursor, acc, events, h => by
    rcases h with ⟨hstatus, hnodes, hinfo⟩
    rw [fetch_pages_step key doc response [] cursor acc events page.1 page.2 false
      hstatus hnodes hinfo]
    simp [page_queries]
  | response :: r2 :: rs, page :: p2 :: ps, cursor, acc, events, h => by
    rcases h with ⟨⟨hstatus, hnodes, hinfo⟩, htail⟩
    rw [fetch_pages_step key doc response (r2 :: rs) cursor acc events page.1 page.2 true
      hstatus hnodes hinfo]
    rw [if_pos rfl]
    rw [fetch_pages_good key doc (r2 :: rs) (p2 :: ps) page.2
      (acc ++ page.1) (events ++ [Event.query doc (Json.obj [("endCursor", cursor)])]) htail]
    simp [page_queries]
  | [], pages, _, _, _, h => by cases pages <;> exact absurd h (by simp [good_run])
  | [_], [], _, _, _, h => by exact absurd h (by simp [good_run])
  | [_], _ :: _ :: _, _, _, _, h => by exact absurd h (by simp [good_run])
  | _ :: _ :: _, [], _, _, _, h => by exact absurd h (by simp [good_run])
  | _ :: _ :: _, [_], _, _, _, h => by exact absurd h (by simp [good_run])

/-- C1: on every well-formed sequence of pages, `fetch_and_save_systems` and
`fetch_and_save_domains` terminate with exactly one call per page — the first
with the cursor absent (`null`), each next with the previous page's
`pageInfo.endCursor` — and write the concatenation of the pages' nodes lists,
in server order, to the dated snapshot file. -/
theorem fetch_and_save_pagination
    (responses : List HttpResponse) (pages : List (List Json × Json))
    (date_suffix : String) :
    (good_run ("systems") responses pages →
      fetch_and_save_systems responses date_suffix
        = (page_queries .systemsQuery .null pages
            ++ [save_to_file ("systems_data_" ++ date_suffix ++ ".json")
                  (.arr (pages.map Prod.fst).flatten),
                .consoleOut ("Systems data saved to "
                  ++ ("systems_data_" ++ date_suffix ++ ".json"))],
           .ok .null))
    ∧ (good_run ("domains") responses pages →
      fetch_and_save_domains responses date_suffix
        = (page_queries .domainsQuery .null pages
            ++ [save_to_file ("domains_data_" ++ date_suffix ++ ".json")
                  (.arr (pages.map Prod.fst).flatten),
                .consoleOut ("Domains data saved to "
                  ++ ("domains_data_" ++ date_suffix ++ ".json"))],
           .ok .null)) := by
  constructor
  · intro h
    have hfetch := fetch_pages_good ("systems") .systemsQuery responses pages .null [] [] h
    simp [fetch_and_save_systems, hfetch]
  · intro h
    have hfetch := fetch_pages_good ("domains") .domainsQuery responses pages .null [] [] h
    simp [fetch_and_save_domains, hfetch]

/-- The stubbed three-page transport of the spec's pagination test: pages of
sizes 2, 2 and 1 with cursors `"c1"`, `"c2"`, `"c3"`. -/
def demo_page_response (key : String) (nodes : List Json) (endCursor : Json)
    (hasNext : Bool) : HttpResponse :=
  ⟨200, (""),
   .obj [("data", .obj [("account", .obj [(key,
     .obj [("nodes", .arr nodes),
           ("pageInfo", .obj [("endCursor", endCursor),
                              ("hasNextPage", .bool hasNext)])])])])]⟩

/-- C1 witness: the claim evaluated on a stub transport returning three
well-formed system pages of sizes 2, 2 and 1. -/
theorem fetch_and_save_pagination_witness :
    fetch_and_save_systems
      [demo_page_response ("systems") [.str ("s1"), .str ("s2")] (.str ("c1")) true,
       demo_page_response ("systems") [.str ("s3"), .str ("s4")] (.str ("c2")) true,
       demo_page_response ("systems") [.str ("s5")] (.str ("c3")) false]
      ("20240101")
      = (page_queries .systemsQuery .null
           [([.str ("s1"), .str ("s2")], .str ("c1")),
            ([.str ("s3"), .str ("s4")], .str ("c2")),
            ([.str ("s5")], .str ("c3"))]
          ++ [save_to_file ("systems_data_20240101.json")
                (.arr [.str ("s1"), .str ("s2"), .str ("s3"), .str ("s4"), .str ("s5")]),
              .consoleOut ("Systems data saved to systems_data_20240101.json")],
         .ok .null) := by
  have h := (fetch_and_save_pagination
    [demo_page_response ("systems") [.str ("s1"), .str ("s2")] (.str ("c1")) true,
     demo_page_response ("systems") [.str ("s3"), .str ("s4")] (.str ("c2")) true,
     demo_page_response ("systems") [.str ("s5")] (.str ("c3")) false]
    [([.str ("s1"), .str ("s2")], .str ("c1")),
     ([.str ("s3"), .str ("s4")], .str ("c2")),
     ([.str ("s5")], .str ("c3"))]
    ("20240101")).1
    (by
      refine ⟨⟨rfl, rfl, rfl⟩, ⟨rfl, rfl, rfl⟩, ⟨rfl, rfl, rfl⟩⟩)
  rw [h]
  rfl

/-- Every event the pagination loop itself emits is either inherited from the
caller or a network query — the loop never writes a file. -/
theorem fetch_pages_events (key : String) (doc : QueryDoc) :
    ∀ (responses : List HttpResponse) (cursor : Json) (acc : List Json)
      (events : List Event),
      ∀ e ∈ (fetch_pages key doc responses cursor acc events).1,
        e ∈ events ∨ ∃ vars, e = Event.query doc vars := by
  intro responses
  induction responses with
  | nil =>
    intro cursor acc events e he
    simp only [fetch_pages, List.mem_append, List.mem_singleton] at he
    rcases he with h | h
    · exact Or.inl h
    · exact Or.inr ⟨_, h⟩
  | cons response rest ih =>
    intro cursor acc events e he
    simp only [fetch_pages] at he
    rcases hq : opslevel_graphql_query response with msg | result <;> simp only [hq] at he
    · simp only [List.mem_append, List.mem_singleton] at he
      rcases he with h | h
      · exact Or.inl h
      · exact Or.inr ⟨_, h⟩
    · rcases hn : nodes_of key result with e2 | nodes <;> simp only [hn] at he
      · simp only [List.mem_append, List.mem_singleton] at he
        rcases he with h | h
        · exact Or.inl h
        · exact Or.inr ⟨_, h⟩
      · rcases hi : page_info_of key result with e2 | p <;> simp only [hi] at he
        · simp only [List.mem_append, List.mem_singleton] at he
          rcases he with h | h
          · exact Or.inl h
          · exact Or.inr ⟨_, h⟩
        · rcases p with ⟨endCursor, hasNextPage⟩
          simp only at he
          by_cases htr : hasNextPage.truthy
          · rw [if_pos htr] at he
            rcases ih endCursor (acc ++ nodes)
              (events ++ [Event.query doc (Json.obj [("endCursor", cursor)])]) e he with
              h | h
            · simp only [List.mem_append, List.mem_singleton] at h
              rcases h with h2 | h2
              · exact Or.inl h2
              · exact Or.inr ⟨_, h2⟩
            · exact Or.inr h
          · rw [if_neg htr] at he
            simp only [List.mem_append, List.mem_singleton] at he
            rcases he with h | h
            · exact Or.inl h
            · exact Or.inr ⟨_, h⟩

/-- C9: `fetch_and_save_systems` and `fetch_and_save_domains` write the
snapshot only after the whole pagination succeeded: on every run that raises
(transport error or malformed response on any page), the trace contains no
file write at all. -/
theorem snapshot_write_only_after_success
    (responses : List HttpResponse) (date_suffix : String) :
    (∀ err, (fetch_and_save_systems responses date_suffix).2 = .error err →
      ∀ filename content,
        Event.fileWrite filename content ∉ (fetch_and_save_systems responses date_suffix).1)
    ∧ (∀ err, (fetch_and_save_domains responses date_suffix).2 = .error err →
      ∀ filename content,
        Event.fileWrite filename content ∉ (fetch_and_save_domains responses date_suffix).1) := by
  constructor
  · intro err herr filename content hmem
    rcases hfp : fetch_pages ("systems") .systemsQuery responses .null [] [] with ⟨events, out⟩
    cases out with
    | ok data =>
      rw [fetch_and_save_systems, hfp] at herr
      simp at herr
    | error e =>
      rw [fetch_and_save_systems, hfp] at hmem
      simp only at hmem
      have := fetch_pages_events ("systems") .systemsQuery responses .null [] []
        (Event.fileWrite filename content) (by rw [hfp]; exact hmem)
      rcases this with h | ⟨vars, h⟩
      · simp at h
      · cases h
  · intro err herr filename content hmem
    rcases hfp : fetch_pages ("domains") .domainsQuery responses .null [] [] with ⟨events, out⟩
    cases out with
    | ok data =>
      rw [fetch_and_save_domains, hfp] at herr
      simp at herr
    | error e =>
      rw [fetch_and_save_domains, hfp] at hmem
      simp only at hmem
      have := fetch_pages_events ("domains") .domainsQuery responses .null [] []
        (Event.fileWrite filename content) (by rw [hfp]; exact hmem)
      rcases this with h | ⟨vars, h⟩
      · simp at h
      · cases h

/-- C9 witness: on a run whose (only) page fetch fails with HTTP 500, both
functions raise and no file write appears in the trace. -/
theorem snapshot_write_only_after_success_witness :
    (fetch_and_save_systems [⟨500, ("boom"), .null⟩] ("20240101")).2
      = .error (.transportError ("OpsLevel request failed: boom"))
    ∧ Event.fileWrite ("systems_data_20240101.json") ("[]")
        ∉ (fetch_and_save_systems [⟨500, ("boom"), .null⟩] ("20240101")).1 :=
  ⟨rfl,
   (snapshot_write_only_after_success [⟨500, ("boom"), .null⟩] ("20240101")).1
     (.transportError ("OpsLevel request failed: boom")) rfl
     ("systems_data_20240101.json") ("[]")⟩

/-! ### Claim C6: the snapshot round-trip

The round-trip proof below shows `json_loads (json_dumps data) = some data`
for every `Json` value, inverting the indented serializer case by case. -/

/-- A list which cannot extend a decimal number: empty or headed by a
non-digit.  Every delimiter the serializer emits after a number qualifies. -/
def digit_fence : List Char → Prop
  | [] => True
  | c :: _ => is_digit_char c = false

/-- A list of whitespace only (the serializer's newline-plus-indent runs). -/
def ws_only (cs : List Char) : Prop := ∀ c ∈ cs, is_space c = true

theorem digit_char_toNat : ∀ d : Nat, d < 10 → (digit_char d).toNat = 48 + d := by decide

theorem is_digit_digit_char : ∀ d : Nat, d < 10 → is_digit_char (digit_char d) = true := by
  decide

/-- One unfolding of `nat_chars` in least-significant-digit form. -/
theorem nat_chars_eq (n : Nat) :
    nat_chars n = (if n < 10 then [] else nat_chars (n / 10)) ++ [digit_char (n % 10)] := by
  rw [nat_chars.eq_def]
  by_cases h : n < 10
  · simp [h, Nat.mod_eq_of_lt h]
  · simp [h]

theorem nat_chars_ne_nil (n : Nat) : nat_chars n ≠ [] := by
  rw [nat_chars_eq]; simp

theorem nat_chars_digits (n : Nat) : ∀ c ∈ nat_chars n, is_digit_char c = true := by
  induction n using Nat.strongRecOn with
  | _ n ih =>
    rw [nat_chars_eq]
    intro c hc
    rw [List.mem_append] at hc
    rcases hc with h | h
    · by_cases h10 : n < 10
      · simp [h10] at h
      · exact ih (n / 10) (Nat.div_lt_self (by omega) (by omega)) c (by simpa [h10] using h)
    · rw [List.mem_singleton] at h
      subst h
      exact is_digit_digit_char (n % 10) (Nat.mod_lt _ (by omega))

theorem digits_value_aux (n : Nat) : ∀ a : Nat,
    (nat_chars n).foldl (fun a c => 10 * a + (c.toNat - 48)) a
      = a * 10 ^ (nat_chars n).length + n := by
  induction n using Nat.strongRecOn with
  | _ n ih =>
    intro a
    rw [nat_chars_eq]
    by_cases h : n < 10
    · simp only [if_pos h, List.nil_append, List.foldl_cons, List.foldl_nil,
        List.length_singleton, pow_one, Nat.mod_eq_of_lt h,
        digit_char_toNat n h]
      omega
    · simp only [if_neg h, List.foldl_append, List.foldl_cons, List.foldl_nil,
        List.length_append, List.length_singleton,
        digit_char_toNat (n % 10) (Nat.mod_lt _ (by omega))]
      rw [ih (n / 10) (Nat.div_lt_self (by omega) (by omega)) a, pow_succ, ← mul_assoc]
      set u := a * 10 ^ (nat_chars (n / 10)).length
      omega

theorem digits_value_nat_chars (n : Nat) : digits_value (nat_chars n) = n := by
  have h := digits_value_aux n 0
  simpa [digits_value] using h

theorem takeWhile_digits_append : ∀ (ds rest : List Char),
    (∀ c ∈ ds, is_digit_char c = true) → digit_fence rest →
    (ds ++ rest).takeWhile is_digit_char = ds
      ∧ (ds ++ rest).dropWhile is_digit_char = rest := by
  intro ds
  induction ds with
  | nil =>
    intro rest _ hrest
    simp only [List.nil_append]
    cases rest with
    | nil => simp
    | cons c t =>
      have hc : is_digit_char c = false := hrest
      simp [List.takeWhile_cons, List.dropWhile_cons, hc]
  | cons d ds ih =>
    intro rest hds hrest
    have hd : is_digit_char d = true := hds d (by simp)
    have ht := ih rest (fun c hc => hds c (by simp [hc])) hrest
    simp [List.takeWhile_cons, List.dropWhile_cons, hd, ht.1, ht.2]

theorem nat_token_nat_chars (n : Nat) (rest : List Char) (hrest : digit_fence rest) :
    nat_token (nat_chars n ++ rest) = some (n, rest) := by
  obtain ⟨htake, hdrop⟩ :=
    takeWhile_digits_append (nat_chars n) rest (nat_chars_digits n) hrest
  simp only [nat_token, htake, hdrop]
  rcases hnc : nat_chars n with _ | ⟨c, t⟩
  · exact absurd hnc (nat_chars_ne_nil n)
  · simp only []
    rw [← hnc, digits_value_nat_chars]

theorem indent_chars_space (level : Nat) : ∀ c ∈ indent_chars level, is_space c = true := by
  intro c hc
  have hc2 : c = ' ' := List.eq_of_mem_replicate (by simpa [indent_chars] using hc)
  rw [hc2]
  decide

theorem ws_drop_ws : ∀ (pre : List Char), ws_only pre →
    ∀ cs : List Char, ws_drop (pre ++ cs) = ws_drop cs := by
  intro pre
  induction pre with
  | nil => intro _ cs; rfl
  | cons c t ih =>
    intro h cs
    simp only [List.cons_append, ws_drop, h c (by simp), if_pos]
    exact ih (fun x hx => h x (by simp [hx])) cs

theorem ws_drop_no (c : Char) (cs : List Char) (h : is_space c = false) :
    ws_drop (c :: cs) = c :: cs := by
  simp [ws_drop, h]

theorem hex_value_hex_digit : ∀ d : Nat, d < 16 → hex_value (hex_digit d) = some d := by
  decide

theorem hex4_value_hex4 (n : Nat) (h : n < 65536) :
    hex4_value (hex_digit (n / 4096 % 16)) (hex_digit (n / 256 % 16))
      (hex_digit (n / 16 % 16)) (hex_digit (n % 16)) = some n := by
  have h1 := hex_value_hex_digit (n / 4096 % 16) (Nat.mod_lt _ (by omega))
  have h2 := hex_value_hex_digit (n / 256 % 16) (Nat.mod_lt _ (by omega))
  have h3 := hex_value_hex_digit (n / 16 % 16) (Nat.mod_lt _ (by omega))
  have h4 := hex_value_hex_digit (n % 16) (Nat.mod_lt _ (by omega))
  simp only [hex4_value, h1, h2, h3, h4, Option.bind_some, bind, Option.bind, pure,
    Option.some.injEq]
  omega

/-- Char validity, phrased over `Char.toNat`. -/
theorem char_valid_nat (c : Char) :
    c.toNat < 55296 ∨ (57343 < c.toNat ∧ c.toNat < 1114112) := c.valid

/-- Decoding four escaped hex digits of a non-surrogate value recovers it. -/
theorem unescape_u_hex4 (n : Nat) (h : n < 65536)
    (hval : n < 0xd800 ∨ 0xe000 ≤ n) (X : List Char) :
    unescape_u (hex4 n ++ X) = some (Char.ofNat n, X) := by
  simp only [hex4, List.cons_append, List.nil_append, unescape_u, hex4_value_hex4 n h]
  rw [if_pos hval]

/-- Decoding an escaped surrogate pair recovers the combined scalar value. -/
theorem unescape_u_pair (hi lo : Nat) (hh1 : 55296 ≤ hi) (hh2 : hi < 56320)
    (hl1 : 56320 ≤ lo) (hl2 : lo < 57344) (X : List Char) :
    unescape_u (hex4 hi ++ ('\\' :: 'u' :: (hex4 lo ++ X)))
      = some (Char.ofNat (65536 + (hi - 55296) * 1024 + (lo - 56320)), X) := by
  simp only [hex4, List.cons_append, List.nil_append, unescape_u,
    hex4_value_hex4 hi (by omega), hex4_value_hex4 lo (by omega)]
  rw [if_neg (by omega), if_pos (by omega)]
  simp only [and_self, if_true]
  rw [if_pos (show 56320 ≤ lo ∧ lo < 57344 from ⟨hl1, hl2⟩)]

/-- Parsing one escaped character undoes its escaping. -/
theorem string_body_escape_char (c : Char) (X : List Char) :
    string_body (escape_char c ++ X) = push_char c (string_body X) := by
  by_cases h1 : c = '"'
  · subst h1; simp [escape_char, string_body, unescape_short]
  by_cases h2 : c = '\\'
  · subst h2; simp [escape_char, string_body, unescape_short]
  by_cases h3 : c = '\n'
  · subst h3; simp [escape_char, string_body, unescape_short]
  by_cases h4 : c = '\r'
  · subst h4; simp [escape_char, string_body, unescape_short]
  by_cases h5 : c = '\t'
  · subst h5; simp [escape_char, string_body, unescape_short]
  by_cases h6 : c = '\x08'
  · subst h6; simp [escape_char, string_body, unescape_short]
  by_cases h7 : c = '\x0c'
  · subst h7; simp [escape_char, string_body, unescape_short]
  by_cases h8 : 0x20 ≤ c.toNat ∧ c.toNat ≤ 0x7e
  · have he : escape_char c = [c] := by
      simp only [escape_char, if_neg h1, if_neg h2, if_neg h3, if_neg h4, if_neg h5,
        if_neg h6, if_neg h7, if_pos h8]
    rw [he, List.cons_append, List.nil_append, string_body.eq_def]
    simp [h1, h2]
  by_cases h9 : c.toNat < 0x10000
  · have he : escape_char c = '\\' :: 'u' :: hex4 c.toNat := by
      simp only [escape_char, if_neg h1, if_neg h2, if_neg h3, if_neg h4, if_neg h5,
        if_neg h6, if_neg h7, if_neg h8, if_pos h9]
    have hval : c.toNat < 0xd800 ∨ 0xe000 ≤ c.toNat := by
      rcases char_valid_nat c with hv | hv
      · exact Or.inl hv
      · exact Or.inr (by omega)
    rw [he]
    simp [string_body]
    split
    · rename_i heq
      rw [unescape_u_hex4 c.toNat h9 hval X] at heq
      simp at heq
    · rename_i ch r2 heq
      rw [unescape_u_hex4 c.toNat h9 hval X] at heq
      simp only [Option.some.injEq, Prod.mk.injEq] at heq
      obtain ⟨rfl, rfl⟩ := heq
      rw [Char.ofNat_toNat]
  · have hup : c.toNat < 1114112 := by
      rcases char_valid_nat c with hv | hv <;> omega
    have he : escape_char c
        = '\\' :: 'u' :: hex4 (0xd800 + (c.toNat - 0x10000) / 0x400)
          ++ ('\\' :: 'u' :: hex4 (0xdc00 + (c.toNat - 0x10000) % 0x400)) := by
      simp only [escape_char, if_neg h1, if_neg h2, if_neg h3, if_neg h4, if_neg h5,
        if_neg h6, if_neg h7, if_neg h8, if_neg h9]
    have hmod := Nat.mod_lt (c.toNat - 65536) (show 0 < 1024 from by omega)
    have hdiv : (c.toNat - 65536) / 1024 < 1024 := by
      apply Nat.div_lt_of_lt_mul; omega
    have hu := unescape_u_pair (55296 + (c.toNat - 65536) / 1024)
      (56320 + (c.toNat - 65536) % 1024) (by omega) (by omega) (by omega) (by omega) X
    have harith : 65536 + (55296 + (c.toNat - 65536) / 1024 - 55296) * 1024
        + (56320 + (c.toNat - 65536) % 1024 - 56320) = c.toNat := by
      have := Nat.div_add_mod (c.toNat - 65536) 1024
      omega
    rw [harith, Char.ofNat_toNat] at hu
    rw [he]
    simp [string_body, List.append_assoc]
    split
    · rename_i heq
      rw [hu] at heq
      simp at heq
    · rename_i ch r2 heq
      rw [hu] at heq
      simp only [Option.some.injEq, Prod.mk.injEq] at heq
      obtain ⟨rfl, rfl⟩ := heq
      rfl

/-- Parsing an escaped run stops exactly at the closing quote and recovers the
original characters. -/
theorem string_body_escape_chars : ∀ (cs rest : List Char),
    string_body (escape_chars cs ++ '"' :: rest) = some (cs, rest) := by
  intro cs
  induction cs with
  | nil =>
    intro rest
    show string_body (([] : List Char) ++ ('"' :: rest)) = some ([], rest)
    rw [List.nil_append, string_body.eq_def]
    simp
  | cons c cs ih =>
    intro rest
    rw [escape_chars, List.append_assoc, string_body_escape_char, ih]
    rfl

theorem string_mk_data (s : String) : String.mk s.data = s := rfl

/-- A digit character is not whitespace and none of the parser's dispatch
characters. -/
theorem digit_char_not_special (c : Char) (h : is_digit_char c = true) :
    is_space c = false ∧ c ≠ ']' ∧ c ≠ '\x7d' ∧ c ≠ 'n' ∧ c ≠ 't' ∧ c ≠ 'f'
      ∧ c ≠ '"' ∧ c ≠ '[' ∧ c ≠ '\x7b' ∧ c ≠ '-' ∧ c ≠ ',' := by
  have hn : 48 ≤ c.toNat ∧ c.toNat ≤ 57 := by
    simpa [is_digit_char] using h
  have hne : ∀ d : Char, ¬(48 ≤ d.toNat ∧ d.toNat ≤ 57) → c ≠ d := by
    intro d hd hcd
    exact hd (hcd ▸ hn)
  refine ⟨?_, hne _ (by decide), hne _ (by decide), hne _ (by decide), hne _ (by decide),
    hne _ (by decide), hne _ (by decide), hne _ (by decide), hne _ (by decide),
    hne _ (by decide), hne _ (by decide)⟩
  simp only [is_space, Bool.or_eq_false_iff, decide_eq_false_iff_not]
  exact ⟨⟨⟨hne _ (by decide), hne _ (by decide)⟩, hne _ (by decide)⟩, hne _ (by decide)⟩

/-- Every serialized value begins with a character that is neither whitespace
nor a closing bracket. -/
theorem json_print_head (level : Nat) (x : Json) :
    json_print level x ≠ []
      ∧ ∀ c, (json_print level x).head? = some c → is_space c = false ∧ c ≠ ']' := by
  cases x with
  | null =>
    constructor
    · simp [json_print]
    · intro c hc
      simp [json_print] at hc
      subst hc
      exact ⟨by decide, by decide⟩
  | bool b =>
    cases b <;>
      (constructor
       · simp [json_print]
       · intro c hc
         simp [json_print] at hc
         subst hc
         exact ⟨by decide, by decide⟩)
  | num n =>
    have hp : json_print level (.num n) = int_chars n := by simp [json_print]
    by_cases hn : n < 0
    · have hi : int_chars n = '-' :: nat_chars n.natAbs := by
        simp [int_chars, hn]
      rw [hp, hi]
      constructor
      · simp
      · intro c hc
        simp only [List.head?_cons, Option.some.injEq] at hc
        subst hc
        exact ⟨by decide, by decide⟩
    · have hi : int_chars n = nat_chars n.natAbs := by
        simp [int_chars, hn]
      rw [hp, hi]
      obtain ⟨c, t, hct⟩ : ∃ c t, nat_chars n.natAbs = c :: t := by
        rcases hnc : nat_chars n.natAbs with _ | ⟨c, t⟩
        · exact absurd hnc (nat_chars_ne_nil _)
        · exact ⟨c, t, rfl⟩
      have hcdig : is_digit_char c = true :=
        nat_chars_digits n.natAbs c (by rw [hct]; simp)
      obtain ⟨hsp, hbr, -⟩ := digit_char_not_special c hcdig
      rw [hct]
      constructor
      · simp
      · intro c2 hc2
        simp only [List.head?_cons, Option.some.injEq] at hc2
        subst hc2
        exact ⟨hsp, hbr⟩
  | str s =>
    constructor
    · simp [json_print]
    · intro c hc
      simp [json_print] at hc
      subst hc
      exact ⟨by decide, by decide⟩
  | arr es =>
    cases es with
    | nil =>
      constructor
      · simp [json_print]
      · intro c hc
        simp [json_print] at hc
        subst hc
        exact ⟨by decide, by decide⟩
    | cons e es =>
      constructor
      · simp [json_print]
      · intro c hc
        simp [json_print] at hc
        subst hc
        exact ⟨by decide, by decide⟩
  | obj fs =>
    cases fs with
    | nil =>
      constructor
      · simp [json_print]
      · intro c hc
        simp [json_print] at hc
        subst hc
        exact ⟨by decide, by decide⟩
    | cons f fs =>
      rcases f with ⟨k, v⟩
      constructor
      · simp [json_print]
      · intro c hc
        simp [json_print] at hc
        subst hc
        exact ⟨by decide, by decide⟩

/-- The serialized tail of an array cannot extend a number. -/
theorem arr_tail_fence (level : Nat) (xs : List Json) (rest : List Char) :
    digit_fence (arr_tail level xs ++ rest) := by
  cases xs with
  | nil =>
    have h : arr_tail level [] = '\n' :: (indent_chars level ++ [']']) := by
      simp [arr_tail]
    rw [h, List.cons_append]
    show is_digit_char '\n' = false
    decide
  | cons x xs =>
    have h : arr_tail level (x :: xs)
        = ',' :: '\n' :: (indent_chars (level + 1)
            ++ (json_print (level + 1) x ++ arr_tail level xs)) := by
      simp [arr_tail]
    rw [h, List.cons_append]
    show is_digit_char ',' = false
    decide

/-- The serialized tail of an object cannot extend a number. -/
theorem obj_tail_fence (level : Nat) (fs : List (String × Json)) (rest : List Char) :
    digit_fence (obj_tail level fs ++ rest) := by
  cases fs with
  | nil =>
    have h : obj_tail level [] = '\n' :: (indent_chars level ++ ['\x7d']) := by
      simp [obj_tail]
    rw [h, List.cons_append]
    show is_digit_char '\n' = false
    decide
  | cons f fs =>
    rcases f with ⟨k, v⟩
    have h : obj_tail level ((k, v) :: fs)
        = ',' :: '\n' :: (indent_chars (level + 1)
            ++ ('"' :: (escape_chars k.data ++ ('"' :: ':' :: ' ' ::
              (json_print (level + 1) v ++ obj_tail level fs))))) := by
      simp [obj_tail]
    rw [h, List.cons_append]
    show is_digit_char ',' = false
    decide

theorem ws_drop_newline (cs : List Char) : ws_drop ('\n' :: cs) = ws_drop cs := by
  simp only [ws_drop]
  rw [if_pos (by decide)]

theorem ws_only_nil : ws_only ([] : List Char) := by
  intro c hc
  simp at hc

theorem ws_only_space : ws_only [' '] := by
  intro c hc
  simp at hc
  subst hc
  decide

theorem ws_only_newline_indent (level : Nat) : ws_only ('\n' :: indent_chars level) := by
  intro c hc
  rcases List.mem_cons.mp hc with rfl | hc2
  · decide
  · exact indent_chars_space level c hc2

/-- Whitespace dropping stops at the head of a serialized value. -/
theorem ws_drop_print (level : Nat) (x : Json) (tail : List Char) :
    ws_drop (json_print level x ++ tail) = json_print level x ++ tail := by
  obtain ⟨c, t, hct⟩ := List.exists_cons_of_ne_nil (json_print_head level x).1
  rw [hct, List.cons_append,
    ws_drop_no _ _ (((json_print_head level x).2 c (by rw [hct]; rfl)).1)]

/-- Whitespace dropping consumes a newline-plus-indent run and stops at the
next serialized value. -/
theorem ws_drop_item (level : Nat) (x : Json) (tail : List Char) :
    ws_drop ('\n' :: (indent_chars level ++ (json_print level x ++ tail)))
      = json_print level x ++ tail := by
  rw [ws_drop_newline, ws_drop_ws _ (indent_chars_space level), ws_drop_print]

mutual
/-- Parsing a serialized value (after any whitespace run) recovers it and
leaves exactly the remainder, for every fuel exceeding the input length. -/
theorem rt_value : ∀ (x : Json) (level : Nat) (pre rest : List Char) (fuel : Nat),
    ws_only pre → digit_fence rest →
    (pre ++ json_print level x ++ rest).length < fuel →
    parse_value fuel (pre ++ json_print level x ++ rest) = some (x, rest)
  | _, _, _, _, 0, _, _, hlen => absurd hlen (by omega)
  | .null, level, pre, rest, fuel + 1, hpre, _, _ => by
    have hp : json_print level .null = ['n', 'u', 'l', 'l'] := by simp [json_print]
    rw [hp]
    simp only [parse_value, List.append_assoc, List.cons_append]
    rw [ws_drop_ws pre hpre, ws_drop_no _ _ (by decide)]
    simp
  | .bool true, level, pre, rest, fuel + 1, hpre, _, _ => by
    have hp : json_print level (.bool true) = ['t', 'r', 'u', 'e'] := by simp [json_print]
    rw [hp]
    simp only [parse_value, List.append_assoc, List.cons_append]
    rw [ws_drop_ws pre hpre, ws_drop_no _ _ (by decide)]
    simp
  | .bool false, level, pre, rest, fuel + 1, hpre, _, _ => by
    have hp : json_print level (.bool false) = ['f', 'a', 'l', 's', 'e'] := by
      simp [json_print]
    rw [hp]
    simp only [parse_value, List.append_assoc, List.cons_append]
    rw [ws_drop_ws pre hpre, ws_drop_no _ _ (by decide)]
    simp
  | .num n, level, pre, rest, fuel + 1, hpre, hfence, _ => by
    have hp : json_print level (.num n) = int_chars n := by simp [json_print]
    rw [hp]
    by_cases hn : n < 0
    · have hi : int_chars n = '-' :: nat_chars n.natAbs := by simp [int_chars, hn]
      rw [hi]
      simp only [parse_value, List.append_assoc, List.cons_append]
      rw [ws_drop_ws pre hpre, ws_drop_no _ _ (by decide)]
      simp only [Char.reduceEq, reduceIte]
      rw [nat_token_nat_chars n.natAbs rest hfence]
      have hcast : (-(n.natAbs : Int)) = n := by omega
      have hstep : Option.map (fun p : Nat × List Char => (Json.num (-(p.1 : Int)), p.2))
          (some (n.natAbs, rest)) = some (Json.num (-(n.natAbs : Int)), rest) := rfl
      rw [hstep, hcast]
    · have hi : int_chars n = nat_chars n.natAbs := by simp [int_chars, hn]
      rw [hi]
      obtain ⟨c, t, hct⟩ : ∃ c t, nat_chars n.natAbs = c :: t := by
        rcases hnc : nat_chars n.natAbs with _ | ⟨c, t⟩
        · exact absurd hnc (nat_chars_ne_nil _)
        · exact ⟨c, t, rfl⟩
      have hcdig : is_digit_char c = true :=
        nat_chars_digits n.natAbs c (by rw [hct]; simp)
      obtain ⟨hsp, -, -, hcn, hct2, hcf, hcq, hclb, hcob, hcm, -⟩ :=
        digit_char_not_special c hcdig
      simp only [parse_value, List.append_assoc]
      rw [ws_drop_ws pre hpre, hct, List.cons_append, ws_drop_no _ _ hsp]
      simp only []
      rw [if_neg hcn, if_neg hct2, if_neg hcf, if_neg hcq, if_neg hclb, if_neg hcob,
        if_neg hcm, if_pos hcdig]
      rw [show c :: (t ++ rest) = nat_chars n.natAbs ++ rest from by
        rw [hct, List.cons_append]]
      rw [nat_token_nat_chars n.natAbs rest hfence]
      have hcast : ((n.natAbs : Int)) = n := by omega
      have hstep : Option.map (fun p : Nat × List Char => (Json.num ((p.1 : Int)), p.2))
          (some (n.natAbs, rest)) = some (Json.num ((n.natAbs : Int)), rest) := rfl
      rw [hstep, hcast]
  | .str s, level, pre, rest, fuel + 1, hpre, _, _ => by
    have hp : json_print level (.str s) = '"' :: (escape_chars s.data ++ ['"']) := by
      simp [json_print]
    rw [hp]
    simp only [parse_value, List.cons_append, List.append_assoc, List.singleton_append]
    rw [ws_drop_ws pre hpre, ws_drop_no _ _ (by decide)]
    simp only [Char.reduceEq, reduceIte]
    rw [string_body_escape_chars]
    simp [string_mk_data]
  | .arr [], level, pre, rest, fuel + 1, hpre, _, _ => by
    have hp : json_print level (.arr []) = ['[', ']'] := by simp [json_print]
    rw [hp]
    simp only [parse_value, List.append_assoc, List.cons_append]
    rw [ws_drop_ws pre hpre, ws_drop_no _ _ (by decide)]
    simp only [Char.reduceEq, reduceIte]
    rw [ws_drop_no _ _ (by decide)]
    simp
  | .arr (x1 :: xs), level, pre, rest, fuel + 1, hpre, hfence, hlen => by
    have hp : json_print level (.arr (x1 :: xs))
        = '[' :: '\n' :: (indent_chars (level + 1)
            ++ (json_print (level + 1) x1 ++ arr_tail level xs)) := by
      simp [json_print]
    have hlen1 : (([] : List Char) ++ json_print (level + 1) x1
        ++ (arr_tail level xs ++ rest)).length < fuel := by
      rw [hp] at hlen
      simp only [List.length_append, List.length_cons, List.nil_append] at hlen ⊢
      omega
    have hlen2 : (arr_tail level xs ++ rest).length < fuel := by
      rw [hp] at hlen
      simp only [List.length_append, List.length_cons] at hlen ⊢
      omega
    have hv := rt_value x1 (level + 1) [] (arr_tail level xs ++ rest) fuel
      ws_only_nil (arr_tail_fence level xs rest) hlen1
    have ht := rt_arr_tail xs level [x1] rest fuel hfence hlen2
    rw [hp]
    simp only [parse_value, List.cons_append, List.append_assoc]
    rw [ws_drop_ws pre hpre, ws_drop_no _ _ (by decide)]
    simp only [Char.reduceEq, reduceIte]
    rw [ws_drop_item (level + 1) x1 (arr_tail level xs ++ rest)]
    obtain ⟨c1, t1, hct⟩ :=
      List.exists_cons_of_ne_nil (json_print_head (level + 1) x1).1
    obtain ⟨-, hbr1⟩ := (json_print_head (level + 1) x1).2 c1 (by rw [hct]; rfl)
    rw [hct, List.cons_append]
    simp only []
    rw [if_neg hbr1]
    rw [show c1 :: (t1 ++ (arr_tail level xs ++ rest))
        = json_print (level + 1) x1 ++ (arr_tail level xs ++ rest) from by
      rw [hct, List.cons_append]]
    have hv' : parse_value fuel (json_print (level + 1) x1 ++ (arr_tail level xs ++ rest))
        = some (x1, arr_tail level xs ++ rest) := by simpa using hv
    rw [hv']
    simp only [bind, Option.bind]
    rw [ht]
    simp
  | .obj [], level, pre, rest, fuel + 1, hpre, _, _ => by
    have hp : json_print level (.obj []) = ['\x7b', '\x7d'] := by simp [json_print]
    rw [hp]
    simp only [parse_value, List.append_assoc, List.cons_append]
    rw [ws_drop_ws pre hpre, ws_drop_no _ _ (by decide)]
    simp only [Char.reduceEq, reduceIte]
    rw [ws_drop_no _ _ (by decide)]
    simp
  | .obj ((k, v) :: fs), level, pre, rest, fuel + 1, hpre, hfence, hlen => by
    have hp : json_print level (.obj ((k, v) :: fs))
        = '\x7b' :: '\n' :: (indent_chars (level + 1)
            ++ ('"' :: (escape_chars k.data ++ ('"' :: ':' :: ' ' ::
              (json_print (level + 1) v ++ obj_tail level fs))))) := by
      simp [json_print]
    have hlenv : ([' '] ++ json_print (level + 1) v
        ++ (obj_tail level fs ++ rest)).length < fuel := by
      rw [hp] at hlen
      simp only [List.length_append, List.length_cons, List.singleton_append] at hlen ⊢
      omega
    have hlent : (obj_tail level fs ++ rest).length < fuel := by
      rw [hp] at hlen
      simp only [List.length_append, List.length_cons] at hlen ⊢
      omega
    have hv := rt_value v (level + 1) [' '] (obj_tail level fs ++ rest) fuel
      ws_only_space (obj_tail_fence level fs rest) hlenv
    have ht := rt_obj_tail fs level [(k, v)] rest fuel hfence hlent
    rw [hp]
    simp only [parse_value, List.cons_append, List.append_assoc]
    rw [ws_drop_ws pre hpre, ws_drop_no _ _ (by decide)]
    simp only [Char.reduceEq, reduceIte]
    rw [ws_drop_newline, ws_drop_ws _ (indent_chars_space (level + 1)),
      ws_drop_no _ _ (by decide)]
    simp only [Char.reduceEq, reduceIte]
    have hk : member_key ('"' :: (escape_chars k.data ++ ('"' :: ':' :: ' ' ::
        (json_print (level + 1) v ++ (obj_tail level fs ++ rest)))))
        = some (k, ' ' :: (json_print (level + 1) v ++ (obj_tail level fs ++ rest))) := by
      simp only [member_key]
      rw [ws_drop_no _ _ (by decide)]
      simp only [Char.reduceEq, reduceIte]
      rw [string_body_escape_chars]
      simp only []
      rw [ws_drop_no _ _ (by decide)]
      simp [string_mk_data]
    rw [hk]
    simp only [bind, Option.bind]
    have hv' : parse_value fuel (' ' :: (json_print (level + 1) v
        ++ (obj_tail level fs ++ rest))) = some (v, obj_tail level fs ++ rest) := by
      simpa using hv
    rw [hv']
    simp only []
    rw [ht]
    simp
/-- Parsing the serialized tail of an array appends its items to the
accumulator and stops at the closing bracket. -/
theorem rt_arr_tail : ∀ (xs : List Json) (level : Nat) (acc : List Json)
    (rest : List Char) (fuel : Nat),
    digit_fence rest → (arr_tail level xs ++ rest).length < fuel →
    parse_array_rest fuel (arr_tail level xs ++ rest) acc = some (.arr (acc ++ xs), rest)
  | _, _, _, _, 0, _, hlen => absurd hlen (by omega)
  | [], level, acc, rest, fuel + 1, _, _ => by
    have hp : arr_tail level [] = '\n' :: (indent_chars level ++ [']']) := by
      simp [arr_tail]
    rw [hp]
    simp only [parse_array_rest, List.cons_append, List.append_assoc,
      List.singleton_append]
    rw [ws_drop_newline, ws_drop_ws _ (indent_chars_space level),
      ws_drop_no _ _ (by decide)]
    simp
  | x :: xs, level, acc, rest, fuel + 1, hfence, hlen => by
    have hp : arr_tail level (x :: xs)
        = ',' :: '\n' :: (indent_chars (level + 1)
            ++ (json_print (level + 1) x ++ arr_tail level xs)) := by
      simp [arr_tail]
    have hlenv : (('\n' :: indent_chars (level + 1)) ++ json_print (level + 1) x
        ++ (arr_tail level xs ++ rest)).length < fuel := by
      rw [hp] at hlen
      simp only [List.length_append, List.length_cons] at hlen ⊢
      omega
    have hlent : (arr_tail level xs ++ rest).length < fuel := by
      rw [hp] at hlen
      simp only [List.length_append, List.length_cons] at hlen ⊢
      omega
    have hv := rt_value x (level + 1) ('\n' :: indent_chars (level + 1))
      (arr_tail level xs ++ rest) fuel (ws_only_newline_indent (level + 1))
      (arr_tail_fence level xs rest) hlenv
    have ht := rt_arr_tail xs level (acc ++ [x]) rest fuel hfence hlent
    rw [hp]
    simp only [parse_array_rest, List.cons_append, List.append_assoc]
    rw [ws_drop_no _ _ (by decide)]
    simp only [Char.reduceEq, reduceIte]
    have hv' : parse_value fuel ('\n' :: (indent_chars (level + 1)
        ++ (json_print (level + 1) x ++ (arr_tail level xs ++ rest))))
        = some (x, arr_tail level xs ++ rest) := by
      simpa using hv
    rw [hv']
    simp only [bind, Option.bind]
    rw [ht]
    simp
/-- Parsing the serialized tail of an object appends its members to the
accumulator and stops at the closing brace. -/
theorem rt_obj_tail : ∀ (fs : List (String × Json)) (level : Nat)
    (acc : List (String × Json)) (rest : List Char) (fuel : Nat),
    digit_fence rest → (obj_tail level fs ++ rest).length < fuel →
    parse_object_rest fuel (obj_tail level fs ++ rest) acc = some (.obj (acc ++ fs), rest)
  | _, _, _, _, 0, _, hlen => absurd hlen (by omega)
  | [], level, acc, rest, fuel + 1, _, _ => by
    have hp : obj_tail level [] = '\n' :: (indent_chars level ++ ['\x7d']) := by
      simp [obj_tail]
    rw [hp]
    simp only [parse_object_rest, List.cons_append, List.append_assoc,
      List.singleton_append]
    rw [ws_drop_newline, ws_drop_ws _ (indent_chars_space level),
      ws_drop_no _ _ (by decide)]
    simp
  | (k, v) :: fs, level, acc, rest, fuel + 1, hfence, hlen => by
    have hp : obj_tail level ((k, v) :: fs)
        = ',' :: '\n' :: (indent_chars (level + 1)
            ++ ('"' :: (escape_chars k.data ++ ('"' :: ':' :: ' ' ::
              (json_print (level + 1) v ++ obj_tail level fs))))) := by
      simp [obj_tail]
    have hlenv : ([' '] ++ json_print (level + 1) v
        ++ (obj_tail level fs ++ rest)).length < fuel := by
      rw [hp] at hlen
      simp only [List.length_append, List.length_cons, List.singleton_append] at hlen ⊢
      omega
    have hlent : (obj_tail level fs ++ rest).length < fuel := by
      rw [hp] at hlen
      simp only [List.length_append, List.length_cons] at hlen ⊢
      omega
    have hv := rt_value v (level + 1) [' '] (obj_tail level fs ++ rest) fuel
      ws_only_space (obj_tail_fence level fs rest) hlenv
    have ht := rt_obj_tail fs level (acc ++ [(k, v)]) rest fuel hfence hlent
    rw [hp]
    simp only [parse_object_rest, List.cons_append, List.append_assoc]
    rw [ws_drop_no _ _ (by decide)]
    simp only [Char.reduceEq, reduceIte]
    have hk : member_key ('\n' :: (indent_chars (level + 1)
        ++ ('"' :: (escape_chars k.data ++ ('"' :: ':' :: ' ' ::
          (json_print (level + 1) v ++ (obj_tail level fs ++ rest)))))))
        = some (k, ' ' :: (json_print (level + 1) v ++ (obj_tail level fs ++ rest))) := by
      simp only [member_key]
      rw [ws_drop_newline, ws_drop_ws _ (indent_chars_space (level + 1)),
        ws_drop_no _ _ (by decide)]
      simp only [Char.reduceEq, reduceIte]
      rw [string_body_escape_chars]
      simp only []
      rw [ws_drop_no _ _ (by decide)]
      simp [string_mk_data]
    rw [hk]
    simp only [bind, Option.bind]
    have hv' : parse_value fuel (' ' :: (json_print (level + 1) v
        ++ (obj_tail level fs ++ rest))) = some (v, obj_tail level fs ++ rest) := by
      simpa using hv
    rw [hv']
    simp only []
    rw [ht]
    simp
end

/-- The JSON codec round-trip: parsing any serialized value recovers it
exactly. -/
theorem json_loads_dumps (data : Json) : json_loads (json_dumps data) = some data := by
  simp only [json_loads]
  have hdata : (json_dumps data).data = json_print 0 data := rfl
  rw [hdata]
  have hv : parse_value ((json_print 0 data).length + 1) (json_print 0 data)
      = some (data, []) := by
    have h := rt_value data 0 [] [] ((json_print 0 data).length + 1)
      ws_only_nil trivial (by simp)
    simpa using h
  rw [hv]
  simp [ws_drop]

/-- C6: the snapshot round-trip — writing a record sequence with
`save_to_file` produces exactly one file write whose content is the records
serialized as indented JSON, and parsing that content back yields precisely
the in-memory record sequence passed to the writer. -/
theorem snapshot_round_trip (filename : String) (records : List Json) :
    save_to_file filename (.arr records)
      = .fileWrite filename (json_dumps (.arr records))
    ∧ json_loads (json_dumps (.arr records)) = some (.arr records) :=
  ⟨rfl, json_loads_dumps (.arr records)⟩

end ConvertScript
